import Mathlib

/-!
# Thumbnail extraction (`app/src/main/jni/thumbnail.cpp`)

A shallow embedding of `frame_to_bitmap`, `grabThumbnailFast` and the crop
block of `grabThumbnail`.

* C `float` and `double` values are modelled exactly: a finite value is an
  integer count of the least positive value of its format (`2^-149` for
  `float`, `2^-1074` for `double`), and every arithmetic operation rounds the
  exact result to nearest, ties to even, as IEEE 754 prescribes.
* libavformat, libavcodec, libswscale and the JNI host are external: what each
  call returns is read from a `World` record, and the calls the function makes
  are recorded, in order, in a list of `Event`s.
* Logging, the process-wide mutex and `init_methods_cache` (the JNI class
  cache of `jni_utils`) are not modelled.
-/

set_option exponentiation.threshold 10000

namespace Thumbnail

/-! ## Binary floating point -/

/-- A binary floating-point format: `prec` significand bits, least positive
value `2^-ulp`, overflow threshold `2^emax`. -/
structure FloatFormat where
  prec : Nat
  ulp : Nat
  emax : Nat
deriving DecidableEq, Repr

/-- The C `float` type. -/
def binary32 : FloatFormat := ⟨24, 149, 128⟩

/-- The C `double` type. -/
def binary64 : FloatFormat := ⟨53, 1074, 1024⟩

/-- A floating-point datum. `fin k` is the real number `k * 2^-ulp` of the
format at hand. Zero carries no sign: the source never divides by a computed
zero, the only place where the sign of zero is observable. -/
inductive FP where
  | fin (k : Int)
  | pinf
  | ninf
  | nan
deriving DecidableEq, Repr

/-- Bit length by halving, `fuel` steps. -/
def bitLenSlow : Nat → Nat → Nat
  | 0, _ => 0
  | fuel + 1, n => if n = 0 then 0 else bitLenSlow fuel (n / 2) + 1

/-- Bit length by descending powers of two: exact for `n < 2 ^ 2 ^ k`. -/
def bitLenFast : Nat → Nat → Nat
  | 0, n => if n = 0 then 0 else 1
  | k + 1, n =>
    if 2 ^ 2 ^ k ≤ n then bitLenFast k (n / 2 ^ 2 ^ k) + 2 ^ k else bitLenFast k n

/-- Number of binary digits of `n` (`0` for `0`). -/
def bitLen (n : Nat) : Nat :=
  if n < 2 ^ 2 ^ 13 then bitLenFast 13 n else bitLenSlow n n

/-- The integer nearest to `n / d`, ties to the even one. -/
def rne (n d : Nat) : Nat :=
  if 2 * (n % d) < d then n / d
  else if d < 2 * (n % d) then n / d + 1
  else n / d + (n / d) % 2

/-- Round the non-negative quantity `n / d` (counted in least positive values)
to `prec` significant bits: the result is a multiple of `2 ^ s`, where `s` is
the number of bits by which the integer part exceeds `prec`. Below the normal
range `s = 0`, which is gradual underflow. -/
def roundMag (prec n d : Nat) : Nat :=
  rne n (d * 2 ^ (bitLen (n / d) - prec)) * 2 ^ (bitLen (n / d) - prec)

/-- Correctly rounded result with sign `neg` and magnitude `n / d`; overflow
gives an infinity. -/
def FloatFormat.round (f : FloatFormat) (neg : Bool) (n d : Nat) : FP :=
  if 2 ^ (f.emax + f.ulp) ≤ roundMag f.prec n d then (if neg then .ninf else .pinf)
  else .fin (if neg then -(roundMag f.prec n d : Int) else (roundMag f.prec n d : Int))

/-- Conversion of a C integer to the format. -/
def FloatFormat.ofInt (f : FloatFormat) (i : Int) : FP :=
  f.round (decide (i < 0)) (i.natAbs * 2 ^ f.ulp) 1

/-- The value `m / 2 ^ e`, for literals such as `1.5` and `0.5`
(`e ≤ ulp`, and `m` short enough to be exact). -/
def FloatFormat.dyadic (f : FloatFormat) (m : Int) (e : Nat) : FP :=
  .fin (m * ((2 ^ (f.ulp - e) : Nat) : Int))

/-- Floating-point multiplication. -/
def FloatFormat.mul (f : FloatFormat) : FP → FP → FP
  | .nan, _ => .nan
  | _, .nan => .nan
  | .fin a, .fin b => f.round (decide (a * b < 0)) (a.natAbs * b.natAbs) (2 ^ f.ulp)
  | .fin a, .pinf => if a = 0 then .nan else if a < 0 then .ninf else .pinf
  | .fin a, .ninf => if a = 0 then .nan else if a < 0 then .pinf else .ninf
  | .pinf, .fin b => if b = 0 then .nan else if b < 0 then .ninf else .pinf
  | .ninf, .fin b => if b = 0 then .nan else if b < 0 then .pinf else .ninf
  | .pinf, .pinf => .pinf
  | .pinf, .ninf => .ninf
  | .ninf, .pinf => .ninf
  | .ninf, .ninf => .pinf

/-- Floating-point division; a zero divisor is `+0`. -/
def FloatFormat.div (f : FloatFormat) : FP → FP → FP
  | .nan, _ => .nan
  | _, .nan => .nan
  | .fin a, .fin b =>
    if b = 0 then (if a = 0 then .nan else if a < 0 then .ninf else .pinf)
    else f.round (decide (a * b < 0)) (a.natAbs * 2 ^ f.ulp) b.natAbs
  | .fin _, .pinf => .fin 0
  | .fin _, .ninf => .fin 0
  | .pinf, .fin b => if b < 0 then .ninf else .pinf
  | .ninf, .fin b => if b < 0 then .pinf else .ninf
  | .pinf, .pinf => .nan
  | .pinf, .ninf => .nan
  | .ninf, .pinf => .nan
  | .ninf, .ninf => .nan

/-- Floating-point subtraction. -/
def FloatFormat.sub (f : FloatFormat) : FP → FP → FP
  | .nan, _ => .nan
  | _, .nan => .nan
  | .fin a, .fin b => f.round (decide (a - b < 0)) (a - b).natAbs 1
  | .fin _, .pinf => .ninf
  | .fin _, .ninf => .pinf
  | .pinf, .fin _ => .pinf
  | .ninf, .fin _ => .ninf
  | .pinf, .pinf => .nan
  | .pinf, .ninf => .pinf
  | .ninf, .pinf => .ninf
  | .ninf, .ninf => .nan

/-- Conversion to a C integer: the fraction is discarded. The source converts
finite in-range values only; other data give `0` here. -/
def FloatFormat.trunc (f : FloatFormat) : FP → Int
  | .fin k => Int.tdiv k ((2 ^ f.ulp : Nat) : Int)
  | _ => 0

/-- The comparison `x < y`; false when either side is NaN. -/
def FP.lt : FP → FP → Bool
  | .nan, _ => false
  | _, .nan => false
  | .fin a, .fin b => decide (a < b)
  | .fin _, .pinf => true
  | .fin _, .ninf => false
  | .pinf, _ => false
  | .ninf, .ninf => false
  | .ninf, _ => true

/-- The comparison `x == y`; false when either side is NaN. -/
def FP.eq : FP → FP → Bool
  | .fin a, .fin b => decide (a = b)
  | .pinf, .pinf => true
  | .ninf, .ninf => true
  | _, _ => false

/-- The comparison `x >= y`; false when either side is NaN. -/
def FP.ge (x y : FP) : Bool := FP.lt y x || FP.eq x y

/-! ## `frame_to_bitmap`: output size -/

/-- The constant `1.0f`. -/
def one32 : FP := binary32.ofInt 1

/-- The `scale` factor of `frame_to_bitmap` (evaluated when both sides of the
frame are positive). -/
def scaleFactor (width height target_dimension : Int) : FP :=
  if width ≥ height then
    if width > target_dimension then
      binary32.div (binary32.ofInt target_dimension) (binary32.ofInt width)
    else one32
  else
    if height > target_dimension then
      binary32.div (binary32.ofInt target_dimension) (binary32.ofInt height)
    else one32

/-- Width and height of the output of `frame_to_bitmap` for a frame of
`width` by `height` pixels. -/
def outputSize (width height target_dimension : Int) : Int × Int :=
  let scaled : Int × Int :=
    if width > 0 ∧ height > 0 then
      (binary32.trunc (binary32.mul (binary32.ofInt width)
          (scaleFactor width height target_dimension)),
       binary32.trunc (binary32.mul (binary32.ofInt height)
          (scaleFactor width height target_dimension)))
    else (width, height)
  (if scaled.1 < 1 then 1 else scaled.1, if scaled.2 < 1 then 1 else scaled.2)

/-! ## Quality levels (`enum ThumbnailQuality`) and the per-stage switches -/

/-- Fast extraction, lower quality. -/
def QUALITY_FAST : Int := 0

/-- Normal quality, the fallback of every switch. -/
def QUALITY_NORMAL : Int := 1

/-- High quality. -/
def QUALITY_HQ : Int := 2

/-- The libswscale algorithms the source names. -/
inductive SwsAlgorithm where
  | SWS_FAST_BILINEAR
  | SWS_POINT
  | SWS_LANCZOS
deriving DecidableEq, Repr

/-- The `switch (quality)` of `frame_to_bitmap` that picks `sws_algorithm`. -/
def swsAlgorithm (quality : Int) : SwsAlgorithm :=
  if quality = QUALITY_FAST then .SWS_FAST_BILINEAR
  else if quality = QUALITY_HQ then .SWS_LANCZOS
  else .SWS_POINT

/-- The two fields of `AVFormatContext` the source assigns before probing. -/
structure ProbeLimits where
  max_analyze_duration : Int
  probesize : Int
deriving DecidableEq, Repr

/-- The `switch (quality)` ahead of `avformat_find_stream_info`. -/
def probeLimits (quality : Int) : ProbeLimits :=
  if quality = QUALITY_FAST then ⟨500000, 2000000⟩
  else if quality = QUALITY_HQ then ⟨5000000, 10000000⟩
  else ⟨1000000, 5000000⟩

/-- The values of `enum AVDiscard`. -/
inductive AVDiscard where
  | AVDISCARD_NONE
  | AVDISCARD_DEFAULT
  | AVDISCARD_NONREF
  | AVDISCARD_BIDIR
  | AVDISCARD_NONINTRA
  | AVDISCARD_NONKEY
  | AVDISCARD_ALL
deriving DecidableEq, Repr

/-- Frame threading, as numbered in `libavcodec/avcodec.h`. -/
def FF_THREAD_FRAME : Int := 1

/-- Slice threading, as numbered in `libavcodec/avcodec.h`. -/
def FF_THREAD_SLICE : Int := 2

/-- The fields of `AVCodecContext` the source touches. `low_delay` is the bit
`AV_CODEC_FLAG_LOW_DELAY` of `flags`, `fast` the bit `AV_CODEC_FLAG2_FAST` of
`flags2`, and `hw_device_ctx` tells whether that pointer is set. -/
structure AVCodecContext where
  thread_count : Int
  thread_type : Int
  low_delay : Bool
  fast : Bool
  skip_frame : AVDiscard
  skip_idct : AVDiscard
  skip_loop_filter : AVDiscard
  hw_device_ctx : Bool
deriving DecidableEq, Repr

/-- The `switch (quality)` that configures the decoder. -/
def configureDecoder (quality : Int) (ctx : AVCodecContext) : AVCodecContext :=
  if quality = QUALITY_FAST then
    { ctx with thread_count := 1, thread_type := FF_THREAD_SLICE, low_delay := true,
               fast := true, skip_frame := .AVDISCARD_NONREF,
               skip_idct := .AVDISCARD_BIDIR, skip_loop_filter := .AVDISCARD_ALL }
  else if quality = QUALITY_HQ then
    { ctx with thread_count := 4, thread_type := FF_THREAD_FRAME,
               skip_frame := .AVDISCARD_NONE, skip_idct := .AVDISCARD_NONE,
               skip_loop_filter := .AVDISCARD_NONE }
  else
    { ctx with thread_count := 2, thread_type := FF_THREAD_SLICE, low_delay := true,
               fast := true }

/-- The seek flags the source names. -/
inductive SeekFlag where
  | AVSEEK_FLAG_BACKWARD
  | AVSEEK_FLAG_ANY
deriving DecidableEq, Repr

/-- The `switch (quality)` that picks `seek_flags`. -/
def seekFlags (quality : Int) (position : FP) : SeekFlag :=
  if quality = QUALITY_FAST then .AVSEEK_FLAG_ANY
  else if quality = QUALITY_HQ then .AVSEEK_FLAG_BACKWARD
  else if FP.lt position (binary64.ofInt 5) then .AVSEEK_FLAG_ANY else .AVSEEK_FLAG_BACKWARD

/-- The `skip_tolerance` of the `switch (quality)` in the decode loop. -/
def skipTolerance (quality : Int) : FP :=
  if quality = QUALITY_FAST then binary64.ofInt 3
  else if quality = QUALITY_HQ then binary64.dyadic 1 1
  else binary64.dyadic 3 1

/-- The `match_tolerance` of the `switch (quality)` in the decode loop. -/
def matchTolerance (quality : Int) : FP :=
  if quality = QUALITY_FAST then binary64.ofInt 2
  else if quality = QUALITY_HQ then binary64.dyadic 1 1
  else binary64.ofInt 1

/-! ## Frames, packets, streams and the recorded calls -/

/-- What the host and libswscale answer if a frame is converted: whether
`sws_getContext`, `NewIntArray`, `GetIntArrayElements`, `GetStaticObjectField`
and `createBitmap` return an object. -/
structure HostOutcome where
  sws_ctx : Bool
  arr : Bool
  pixels : Bool
  bitmap_config : Bool
  bitmap : Bool
deriving DecidableEq, Repr

/-- A decoded frame: the fields of `AVFrame` the source reads, and the answers
the host would give while it is converted. -/
structure AVFrame where
  pts : Int
  best_effort_timestamp : Int
  width : Int
  height : Int
  host : HostOutcome
deriving DecidableEq, Repr

/-- The timestamp that stands for "none" (`INT64_MIN`). -/
def AV_NOPTS_VALUE : Int := -(2 ^ 63 : Nat)

/-- A rational time base. -/
structure AVRational where
  num : Int
  den : Int
deriving DecidableEq, Repr

/-- The libavutil helper `a.num / (double) a.den`. -/
def av_q2d (a : AVRational) : FP :=
  binary64.div (binary64.ofInt a.num) (binary64.ofInt a.den)

/-- The media type that marks a video stream (`libavutil/avutil.h`). -/
def AVMEDIA_TYPE_VIDEO : Int := 0

/-- A stream of the container: `codecpar->codec_type` and `time_base`. -/
structure AVStream where
  codec_type : Int
  time_base : AVRational
deriving DecidableEq, Repr

/-- A packet as `av_read_frame` delivers it: its stream, whether
`avcodec_send_packet` accepts it, and the frames the decoder then holds for
`avcodec_receive_frame`, in decode order. -/
structure AVPacket where
  stream_index : Int
  send_packet : Bool
  frames : List AVFrame
deriving DecidableEq, Repr

/-- The image `frame_to_bitmap` returns: the frame it shows, its size and the
scaling algorithm. -/
structure Bitmap where
  source : AVFrame
  width : Int
  height : Int
  sws_algorithm : SwsAlgorithm
deriving DecidableEq, Repr

/-- A call made by the source (or, for `probe_limits`, an assignment to the
container), with the answer where one is tested. -/
inductive Event where
  | GetStringUTFChars (ok : Bool)
  | ReleaseStringUTFChars
  | avformat_open_input (ok : Bool)
  | probe_limits (limits : ProbeLimits)
  | avformat_find_stream_info (ok : Bool)
  | avformat_close_input
  | avcodec_find_decoder (stream : Nat) (ok : Bool)
  | avcodec_alloc_context3 (ok : Bool)
  | avcodec_parameters_to_context (ok : Bool)
  | av_hwdevice_find_type_by_name (ok : Bool)
  | av_hwdevice_ctx_create (ok : Bool)
  | av_buffer_ref (ok : Bool)
  | av_buffer_unref
  | avcodec_open2 (ctx : AVCodecContext) (ok : Bool)
  | av_seek_frame (stream : Int) (timestamp : Int) (flags : SeekFlag) (ok : Bool)
  | avcodec_flush_buffers
  | av_packet_alloc (ok : Bool)
  | av_frame_alloc (ok : Bool)
  | av_read_frame (ok : Bool)
  | avcodec_send_packet (ok : Bool)
  | avcodec_receive_frame (ok : Bool)
  | av_frame_unref
  | av_packet_unref
  | frame_to_bitmap (frame : AVFrame) (target_dimension : Int) (quality : Int)
  | sws_getContext (width height : Int) (algorithm : SwsAlgorithm) (ok : Bool)
  | NewIntArray (ok : Bool)
  | GetIntArrayElements (ok : Bool)
  | sws_scale
  | sws_freeContext
  | ReleaseIntArrayElements
  | GetStaticObjectField (ok : Bool)
  | createBitmap (width height : Int) (ok : Bool)
  | DeleteLocalRef_arr
  | DeleteLocalRef_bitmap_config
  | av_frame_free
  | av_packet_free
  | avcodec_free_context (ctx : AVCodecContext)
deriving DecidableEq, Repr

/-! ## `frame_to_bitmap` -/

/-- The body of `frame_to_bitmap`: the image (if any) and the calls made. -/
def frame_to_bitmap (frame : AVFrame) (target_dimension quality : Int) :
    Option Bitmap × List Event :=
  let size := outputSize frame.width frame.height target_dimension
  let sws := Event.sws_getContext size.1 size.2 (swsAlgorithm quality)
  if !frame.host.sws_ctx then (none, [sws false])
  else if !frame.host.arr then
    (none, [sws true, .NewIntArray false, .sws_freeContext])
  else if !frame.host.pixels then
    (none, [sws true, .NewIntArray true, .GetIntArrayElements false, .DeleteLocalRef_arr,
            .sws_freeContext])
  else if !frame.host.bitmap_config then
    (none, [sws true, .NewIntArray true, .GetIntArrayElements true, .sws_scale,
            .sws_freeContext, .ReleaseIntArrayElements, .GetStaticObjectField false,
            .DeleteLocalRef_arr])
  else
    (if frame.host.bitmap then some ⟨frame, size.1, size.2, swsAlgorithm quality⟩ else none,
     [sws true, .NewIntArray true, .GetIntArrayElements true, .sws_scale,
      .sws_freeContext, .ReleaseIntArrayElements, .GetStaticObjectField true,
      .createBitmap size.1 size.2 frame.host.bitmap, .DeleteLocalRef_arr,
      .DeleteLocalRef_bitmap_config])

/-! ## The decode loop of `grabThumbnailFast` -/

/-- The constant `0.0`. -/
def zero64 : FP := binary64.ofInt 0

/-- The "safety limit" of the read loop. -/
def MAX_FRAMES : Nat := 300

/-- The local `frame_time`: `pts`, else `best_effort_timestamp`, times the
stream time base; `0.0` when the frame has neither. -/
def frameTime (time_base : AVRational) (frame : AVFrame) : FP :=
  if frame.pts ≠ AV_NOPTS_VALUE then
    binary64.mul (binary64.ofInt frame.pts) (av_q2d time_base)
  else if frame.best_effort_timestamp ≠ AV_NOPTS_VALUE then
    binary64.mul (binary64.ofInt frame.best_effort_timestamp) (av_q2d time_base)
  else zero64

/-- The test `position > 0.0 && frame_time < position - skip_tolerance`. -/
def skipTest (quality : Int) (position frame_time : FP) : Bool :=
  FP.lt zero64 position &&
    FP.lt frame_time (binary64.sub position (skipTolerance quality))

/-- The test `position == 0.0 || frame_time >= position - match_tolerance`. -/
def matchTest (quality : Int) (position frame_time : FP) : Bool :=
  FP.eq position zero64 ||
    FP.ge frame_time (binary64.sub position (matchTolerance quality))

/-- The locals the decode loop reads. -/
structure DecodeArgs where
  video_stream_idx : Int
  time_base : AVRational
  position : FP
  dimension : Int
  quality : Int
deriving DecidableEq, Repr

/-- State at the exit of the inner `while (avcodec_receive_frame ...)`:
`bitmap`, the frames still held by the decoder, `frames_decoded`, the calls. -/
structure Received where
  bitmap : Option Bitmap
  queue : List AVFrame
  frames_decoded : Nat
  events : List Event
deriving DecidableEq, Repr

/-- The inner loop, over the frames the decoder holds. A frame that passes
the match test is converted and the loop is left, the later frames staying in
the decoder. -/
def receiveFrames (a : DecodeArgs) : List AVFrame → Nat → Received
  | [], n => ⟨none, [], n, [.avcodec_receive_frame false]⟩
  | frame :: rest, n =>
    if skipTest a.quality a.position (frameTime a.time_base frame) then
      let r := receiveFrames a rest (n + 1)
      { r with events := [.avcodec_receive_frame true, .av_frame_unref] ++ r.events }
    else if matchTest a.quality a.position (frameTime a.time_base frame) then
      ⟨(frame_to_bitmap frame a.dimension a.quality).1, rest, n + 1,
       [.avcodec_receive_frame true, .frame_to_bitmap frame a.dimension a.quality]
         ++ (frame_to_bitmap frame a.dimension a.quality).2⟩
    else
      let r := receiveFrames a rest (n + 1)
      { r with events := [.avcodec_receive_frame true, .av_frame_unref] ++ r.events }

/-- State at the exit of the outer `while (av_read_frame ...)`. -/
structure Decoded where
  bitmap : Option Bitmap
  frames_decoded : Nat
  events : List Event
deriving DecidableEq, Repr

/-- The outer loop, over the packets the container still delivers; `queue`
holds the frames left in the decoder and `n` is `frames_decoded`. The packet
is read before `frames_decoded < MAX_FRAMES` is tested, and the loop is left
early only when `frame_found` is set, that is when a conversion succeeded. -/
def readPackets (a : DecodeArgs) : List AVPacket → List AVFrame → Nat → Decoded
  | [], _, n => ⟨none, n, [.av_read_frame false]⟩
  | p :: ps, queue, n =>
    if ¬ n < MAX_FRAMES then ⟨none, n, [.av_read_frame true]⟩
    else if p.stream_index = a.video_stream_idx then
      if p.send_packet then
        let r := receiveFrames a (queue ++ p.frames) n
        if r.bitmap.isSome then
          ⟨r.bitmap, r.frames_decoded,
           [.av_read_frame true, .avcodec_send_packet true] ++ r.events ++ [.av_packet_unref]⟩
        else
          let d := readPackets a ps r.queue r.frames_decoded
          { d with events := [.av_read_frame true, .avcodec_send_packet true] ++ r.events
                      ++ [.av_packet_unref] ++ d.events }
      else
        let d := readPackets a ps queue n
        { d with events := [.av_read_frame true, .avcodec_send_packet false, .av_packet_unref]
                    ++ d.events }
    else
      let d := readPackets a ps queue n
      { d with events := [.av_read_frame true, .av_packet_unref] ++ d.events }

/-! ## `grabThumbnailFast` -/

/-- What the libraries and the host answer during one request. `codec_ctx` is
the decoder context as `avcodec_parameters_to_context` leaves it. -/
structure World where
  path : Bool
  open_input : Bool
  find_stream_info : Bool
  streams : List AVStream
  find_decoder : Bool
  alloc_context3 : Bool
  parameters_to_context : Bool
  codec_ctx : AVCodecContext
  hwdevice_type : Bool
  hwdevice_ctx_create : Bool
  buffer_ref : Bool
  open2 : Bool
  seek_frame : Bool
  packet_alloc : Bool
  frame_alloc : Bool
  packets : List AVPacket
deriving DecidableEq, Repr

/-- The `return` statement a request leaves through. -/
inductive Exit where
  | invalid_dimension
  | invalid_position
  | invalid_path
  | open_failed
  | stream_info_failed
  | no_video_stream
  | codec_not_found
  | alloc_context_failed
  | parameters_failed
  | open_codec_failed
  | packet_alloc_failed
  | frame_alloc_failed
  | frame_not_found
  | success
deriving DecidableEq, Repr

/-- Result of a request: the exit taken, the returned object (`none` is
`NULL`) and the calls made, in order. -/
structure Outcome where
  exit : Exit
  bitmap : Option Bitmap
  events : List Event
deriving DecidableEq, Repr

/-- The same outcome after the calls `pre`. -/
def Outcome.after (pre : List Event) (o : Outcome) : Outcome :=
  { o with events := pre ++ o.events }

/-- The constant `INT64_MAX`. -/
def INT64_MAX : Int := (2 ^ 63 : Nat) - 1

/-- The libavutil constant `AV_TIME_BASE`. -/
def AV_TIME_BASE : Int := 1000000

/-- A 64-bit signed result, two's complement. -/
def wrap64 (x : Int) : Int := (x + (2 ^ 63 : Nat)) % (2 ^ 64 : Nat) - (2 ^ 63 : Nat)

/-- The local `timestamp = (int64_t)(position * AV_TIME_BASE)`. -/
def seekMicros (position : FP) : Int :=
  binary64.trunc (binary64.mul position (binary64.ofInt AV_TIME_BASE))

/-- The third argument of `av_seek_frame`:
`timestamp * time_base.den / time_base.num / AV_TIME_BASE` in 64-bit signed
arithmetic. (`time_base.num` is not zero in a stream libavformat hands out.) -/
def seekTarget (position : FP) (time_base : AVRational) : Int :=
  Int.tdiv (wrap64 (Int.tdiv (wrap64 (seekMicros position * time_base.den)) time_base.num))
    AV_TIME_BASE

/-- The guard of step 4: `position > 0.0 && position < INT64_MAX / AV_TIME_BASE`. -/
def seekGuard (position : FP) : Bool :=
  FP.lt zero64 position && FP.lt position (binary64.ofInt (Int.tdiv INT64_MAX AV_TIME_BASE))

/-- Step 2: the first stream, from index `i` on, whose type is video. The
stream count is an `unsigned int` that libavformat keeps far below `INT_MAX`,
so the index is stored in `video_stream_idx` unchanged. -/
def findVideoStream : List AVStream → Nat → Option (Nat × AVStream)
  | [], _ => none
  | s :: rest, i =>
    if s.codec_type = AVMEDIA_TYPE_VIDEO then some (i, s) else findVideoStream rest (i + 1)

/-- The `if (use_hw_dec)` block: the context afterwards and the calls made. -/
def attachHardware (w : World) (use_hw_dec : Bool) (ctx : AVCodecContext) :
    AVCodecContext × List Event :=
  if use_hw_dec then
    if w.hwdevice_type then
      if w.hwdevice_ctx_create then
        ({ ctx with hw_device_ctx := w.buffer_ref },
         [.av_hwdevice_find_type_by_name true, .av_hwdevice_ctx_create true,
          .av_buffer_ref w.buffer_ref, .av_buffer_unref])
      else (ctx, [.av_hwdevice_find_type_by_name true, .av_hwdevice_ctx_create false])
    else (ctx, [.av_hwdevice_find_type_by_name false])
  else (ctx, [])

/-- Step 5 and the cleanup: packet and frame allocation, the decode loop, the
four releases and the final test of `frame_found`. -/
def decodeStage (w : World) (ctx : AVCodecContext) (a : DecodeArgs) : Outcome :=
  if !w.packet_alloc then
    ⟨.packet_alloc_failed, none,
     [.av_packet_alloc false, .avcodec_free_context ctx, .avformat_close_input]⟩
  else if !w.frame_alloc then
    ⟨.frame_alloc_failed, none,
     [.av_packet_alloc true, .av_frame_alloc false, .av_packet_free,
      .avcodec_free_context ctx, .avformat_close_input]⟩
  else
    ⟨if (readPackets a w.packets [] 0).bitmap.isSome then .success else .frame_not_found,
     (readPackets a w.packets [] 0).bitmap,
     [.av_packet_alloc true, .av_frame_alloc true] ++ (readPackets a w.packets [] 0).events
       ++ [.av_frame_free, .av_packet_free, .avcodec_free_context ctx,
           .avformat_close_input]⟩

/-- Step 4: the guarded seek and flush, then step 5. -/
def seekStage (w : World) (ctx : AVCodecContext) (a : DecodeArgs) : Outcome :=
  if seekGuard a.position then
    (decodeStage w ctx a).after
      [.av_seek_frame a.video_stream_idx (seekTarget a.position a.time_base)
         (seekFlags a.quality a.position) w.seek_frame,
       .avcodec_flush_buffers]
  else decodeStage w ctx a

/-- Step 3: decoder lookup, allocation, configuration, hardware attachment and
opening, then step 4. `idx` and `stream` are the selected video stream. -/
def decoderStage (w : World) (idx : Nat) (stream : AVStream) (position : FP)
    (dimension : Int) (use_hw_dec : Bool) (quality : Int) : Outcome :=
  let ctx0 : AVCodecContext := { w.codec_ctx with hw_device_ctx := false }
  let hw := attachHardware w use_hw_dec (configureDecoder quality ctx0)
  if !w.find_decoder then
    ⟨.codec_not_found, none, [.avcodec_find_decoder idx false, .avformat_close_input]⟩
  else if !w.alloc_context3 then
    ⟨.alloc_context_failed, none,
     [.avcodec_find_decoder idx true, .avcodec_alloc_context3 false, .avformat_close_input]⟩
  else if !w.parameters_to_context then
    ⟨.parameters_failed, none,
     [.avcodec_find_decoder idx true, .avcodec_alloc_context3 true,
      .avcodec_parameters_to_context false, .avcodec_free_context ctx0,
      .avformat_close_input]⟩
  else if !w.open2 then
    ⟨.open_codec_failed, none,
     [.avcodec_find_decoder idx true, .avcodec_alloc_context3 true,
      .avcodec_parameters_to_context true] ++ hw.2
       ++ [.avcodec_open2 hw.1 false, .avcodec_free_context hw.1, .avformat_close_input]⟩
  else
    (seekStage w hw.1 ⟨idx, stream.time_base, position, dimension, quality⟩).after
      ([.avcodec_find_decoder idx true, .avcodec_alloc_context3 true,
        .avcodec_parameters_to_context true] ++ hw.2 ++ [.avcodec_open2 hw.1 true])

/-- The quality in force after the validation block: out-of-range values are
replaced by `1`. -/
def clampQuality (quality : Int) : Int :=
  if quality < 0 ∨ quality > 2 then 1 else quality

/-- The function `grabThumbnailFast`. -/
def grabThumbnailFast (w : World) (_jpath : String) (position : FP) (dimension : Int)
    (use_hw_dec : Bool) (quality : Int) : Outcome :=
  if dimension ≤ 0 ∨ dimension > 4096 then ⟨.invalid_dimension, none, []⟩
  else if FP.lt position zero64 then ⟨.invalid_position, none, []⟩
  else if !w.path then ⟨.invalid_path, none, [.GetStringUTFChars false]⟩
  else if !w.open_input then
    ⟨.open_failed, none,
     [.GetStringUTFChars true, .avformat_open_input false, .ReleaseStringUTFChars]⟩
  else if !w.find_stream_info then
    ⟨.stream_info_failed, none,
     [.GetStringUTFChars true, .avformat_open_input true, .ReleaseStringUTFChars,
      .probe_limits (probeLimits (clampQuality quality)), .avformat_find_stream_info false,
      .avformat_close_input]⟩
  else
    match findVideoStream w.streams 0 with
    | none =>
      ⟨.no_video_stream, none,
       [.GetStringUTFChars true, .avformat_open_input true, .ReleaseStringUTFChars,
        .probe_limits (probeLimits (clampQuality quality)), .avformat_find_stream_info true,
        .avformat_close_input]⟩
    | some (idx, stream) =>
      (decoderStage w idx stream position dimension use_hw_dec (clampQuality quality)).after
        [.GetStringUTFChars true, .avformat_open_input true, .ReleaseStringUTFChars,
         .probe_limits (probeLimits (clampQuality quality)), .avformat_find_stream_info true]

/-! ## Ownership ledger -/

/-- The native resources a request can hold. -/
inductive Resource where
  | path_chars
  | format_ctx
  | codec_ctx
  | hw_device_ref
  | packet
  | frame
  | sws_ctx
  | int_array
  | array_elements
  | bitmap_config
deriving DecidableEq, Repr

/-- The resource a successful call hands to the caller. -/
def Event.acquires : Event → List Resource
  | .GetStringUTFChars true => [.path_chars]
  | .avformat_open_input true => [.format_ctx]
  | .avcodec_alloc_context3 true => [.codec_ctx]
  | .av_hwdevice_ctx_create true => [.hw_device_ref]
  | .av_buffer_ref true => [.hw_device_ref]
  | .av_packet_alloc true => [.packet]
  | .av_frame_alloc true => [.frame]
  | .sws_getContext _ _ _ true => [.sws_ctx]
  | .NewIntArray true => [.int_array]
  | .GetIntArrayElements true => [.array_elements]
  | .GetStaticObjectField true => [.bitmap_config]
  | _ => []

/-- The resources a call gives back. `avcodec_free_context` also drops the
reference held in `hw_device_ctx`, when there is one. -/
def Event.releases : Event → List Resource
  | .ReleaseStringUTFChars => [.path_chars]
  | .avformat_close_input => [.format_ctx]
  | .avcodec_free_context ctx =>
    if ctx.hw_device_ctx then [.codec_ctx, .hw_device_ref] else [.codec_ctx]
  | .av_buffer_unref => [.hw_device_ref]
  | .av_packet_free => [.packet]
  | .av_frame_free => [.frame]
  | .sws_freeContext => [.sws_ctx]
  | .DeleteLocalRef_arr => [.int_array]
  | .ReleaseIntArrayElements => [.array_elements]
  | .DeleteLocalRef_bitmap_config => [.bitmap_config]
  | _ => []

/-- Give back each of `rs` out of `held`; `none` if one of them is not held. -/
def releaseAll : List Resource → List Resource → Option (List Resource)
  | [], held => some held
  | r :: rs, held => if r ∈ held then releaseAll rs (held.erase r) else none

/-- Run the calls against the resources held; `none` as soon as a call gives
back something that is not held. -/
def ledger : List Event → List Resource → Option (List Resource)
  | [], held => some held
  | e :: es, held =>
    match releaseAll e.releases held with
    | none => none
    | some rest => ledger es (e.acquires ++ rest)

/-- The frames handed to `frame_to_bitmap`, in call order. -/
def convertedFrames : List Event → List AVFrame
  | [] => []
  | .frame_to_bitmap frame _ _ :: es => frame :: convertedFrames es
  | _ :: es => convertedFrames es

/-- The frames of the selected stream in decode order: those of the packets
of stream `idx` that the decoder accepted. -/
def decodeOrder (idx : Int) : List AVPacket → List AVFrame
  | [] => []
  | p :: ps =>
    if p.stream_index = idx ∧ p.send_packet = true then p.frames ++ decodeOrder idx ps
    else decodeOrder idx ps

/-! ## Sample data -/

/-- Host answers of a conversion that succeeds. -/
def hostOk : HostOutcome := ⟨true, true, true, true, true⟩

/-- Host answers of a conversion that fails at `sws_getContext`. -/
def hostNoSws : HostOutcome := ⟨false, true, true, true, true⟩

/-- A 1920 by 1080 frame with the given timestamp. -/
def frameAt (pts : Int) (host : HostOutcome) : AVFrame := ⟨pts, pts, 1920, 1080, host⟩

/-- A decoder context with libavcodec defaults. -/
def defaultCtx : AVCodecContext :=
  ⟨1, 3, false, false, .AVDISCARD_DEFAULT, .AVDISCARD_DEFAULT, .AVDISCARD_DEFAULT, false⟩

/-- A container with an audio stream `0` and a video stream `1` (time base
`1/90000`), every call succeeding, delivering the given packets. -/
def sampleWorld (packets : List AVPacket) : World :=
  ⟨true, true, true, [⟨1, ⟨1, 48000⟩⟩, ⟨0, ⟨1, 90000⟩⟩], true, true, true, defaultCtx,
   true, true, true, true, true, true, true, packets⟩

/-- The match test of the decode loop applied to a frame. -/
def accepts (a : DecodeArgs) (frame : AVFrame) : Bool :=
  matchTest a.quality a.position (frameTime a.time_base frame)

/-- Loop arguments of a NORMAL request for position `10.0` on stream `1` with
time base `1/90000`. -/
def sampleArgs : DecodeArgs := ⟨1, ⟨1, 90000⟩, binary64.ofInt 10, 256, 1⟩

/-- An audio packet, then video packets with frames at 0 s, 8.5 s, 9 s and
10 s (the 8.5 s frame lies between the two tolerances). -/
def samplePackets : List AVPacket :=
  [⟨0, true, []⟩, ⟨1, true, [frameAt 0 hostOk]⟩, ⟨1, true, [frameAt 765000 hostOk]⟩,
   ⟨1, true, [frameAt 810000 hostOk]⟩, ⟨1, true, [frameAt 900000 hostOk]⟩]

/-! ## The quality table of the specification -/

/-- The three levels of the quality table. -/
inductive Level where
  | FAST
  | NORMAL
  | HQ
deriving DecidableEq, Repr

/-- The level an integer quality stands for: `0` is FAST, `2` is HQ, `1` and
every other value NORMAL. -/
def levelOf (quality : Int) : Level :=
  if quality = 0 then .FAST else if quality = 2 then .HQ else .NORMAL

/-- One row of the quality table, as the specification words it: analysis
time in seconds and probe size in bytes; decoder thread count and threading
mode; whether the low-delay and fast flags are set; the three skip settings
(frame, idct, loop filter) where the row sets them; the seek flag as a function
of the position; the two tolerances; the scaling algorithm. -/
structure QualityRow where
  analysis_seconds : ℚ
  probe_bytes : Int
  threads : Int
  thread_mode : Int
  fast_flags : Bool
  skip : Option (AVDiscard × AVDiscard × AVDiscard)
  seek_flag : FP → SeekFlag
  skip_tolerance : FP
  match_tolerance : FP
  scale_algorithm : SwsAlgorithm

/-- The quality table of the specification, with its literal values. -/
def specQualityTable : Level → QualityRow
  | .FAST =>
    ⟨1 / 2, 2000000, 1, FF_THREAD_SLICE, true,
     some (.AVDISCARD_NONREF, .AVDISCARD_BIDIR, .AVDISCARD_ALL),
     fun _ => .AVSEEK_FLAG_ANY, binary64.dyadic 3 0, binary64.dyadic 2 0, .SWS_FAST_BILINEAR⟩
  | .NORMAL =>
    ⟨1, 5000000, 2, FF_THREAD_SLICE, true, none,
     fun position =>
       if FP.lt position (binary64.dyadic 5 0) then .AVSEEK_FLAG_ANY
       else .AVSEEK_FLAG_BACKWARD,
     binary64.dyadic 3 1, binary64.dyadic 1 0, .SWS_POINT⟩
  | .HQ =>
    ⟨5, 10000000, 4, FF_THREAD_FRAME, false,
     some (.AVDISCARD_NONE, .AVDISCARD_NONE, .AVDISCARD_NONE),
     fun _ => .AVSEEK_FLAG_BACKWARD, binary64.dyadic 1 1, binary64.dyadic 1 1, .SWS_LANCZOS⟩

/-- What a row asks of the decoder context: thread count and mode, the two
flags where the row sets them, the skip settings where the row sets them;
every other field as it was. -/
def QualityRow.configure (row : QualityRow) (ctx : AVCodecContext) : AVCodecContext :=
  { ctx with
    thread_count := row.threads
    thread_type := row.thread_mode
    low_delay := row.fast_flags || ctx.low_delay
    fast := row.fast_flags || ctx.fast
    skip_frame := (row.skip.map (fun s => s.1)).getD ctx.skip_frame
    skip_idct := (row.skip.map (fun s => s.2.1)).getD ctx.skip_idct
    skip_loop_filter := (row.skip.map (fun s => s.2.2)).getD ctx.skip_loop_filter }

/-- A recorded call agrees with a row: the probe limits, the decoder context
being opened, the seek flag and the scaling algorithm are the ones of the row. -/
def Event.agreesWith (row : QualityRow) (position : FP) : Event → Prop
  | .probe_limits limits =>
    (limits.max_analyze_duration : ℚ) = row.analysis_seconds * 1000000 ∧
      limits.probesize = row.probe_bytes
  | .avcodec_open2 ctx _ => row.configure ctx = ctx
  | .av_seek_frame _ _ flags _ => flags = row.seek_flag position
  | .sws_getContext _ _ algorithm _ => algorithm = row.scale_algorithm
  | _ => True

/-- The call that creates a decoder: `avcodec_alloc_context3` returning a
context. -/
def Event.createsDecoder : Event → Bool
  | .avcodec_alloc_context3 true => true
  | _ => false

/-- The call `av_seek_frame`. -/
def Event.isSeek : Event → Bool
  | .av_seek_frame _ _ _ _ => true
  | _ => false

/-- The call `avcodec_flush_buffers`. -/
def Event.isFlush : Event → Bool
  | .avcodec_flush_buffers => true
  | _ => false

/-- The call `av_read_frame`. -/
def Event.isRead : Event → Bool
  | .av_read_frame _ => true
  | _ => false

/-- The request passes validation and the container is opened and probed. -/
@[reducible] def reachesStreamSelection (w : World) (position : FP) (dimension : Int) : Prop :=
  0 < dimension ∧ dimension ≤ 4096 ∧ FP.lt position zero64 = false ∧
    w.path = true ∧ w.open_input = true ∧ w.find_stream_info = true

/-- The request reaches step 4: it passes validation, the container is opened
and probed, a video stream exists and its decoder is found, created and
opened. -/
@[reducible] def reachesSeek (w : World) (position : FP) (dimension : Int) : Prop :=
  reachesStreamSelection w position dimension ∧
    (∃ s ∈ w.streams, s.codec_type = AVMEDIA_TYPE_VIDEO) ∧
    w.find_decoder = true ∧ w.alloc_context3 = true ∧ w.parameters_to_context = true ∧
    w.open2 = true

/-- What is held while a decoder context exists: the container, the context
and, if `hw_device_ctx` is set, one reference to the hardware device. -/
def heldWith (ctx : AVCodecContext) : List Resource :=
  if ctx.hw_device_ctx then [.hw_device_ref, .codec_ctx, .format_ctx]
  else [.codec_ctx, .format_ctx]

/-! ## `grabThumbnail`: the square crop -/

/-- A 32-bit signed result, two's complement. -/
def wrap32 (x : Int) : Int := (x + 2147483648) % 4294967296 - 2147483648

/-- The locals `crop_left`, `crop_top`, `new_w` and `new_h` of `grabThumbnail`
after the "crop to square" block. -/
structure Crop where
  crop_left : Int
  crop_top : Int
  new_w : Int
  new_h : Int
deriving DecidableEq, Repr

/-- The "crop to square" block of `grabThumbnail` for a screenshot of `w` by
`h` pixels (`int` arithmetic). -/
def cropToSquare (w h : Int) : Crop :=
  if w > h then ⟨Int.tdiv (wrap32 (w - h)) 2, 0, h, h⟩
  else ⟨0, Int.tdiv (wrap32 (h - w)) 2, w, w⟩

/-! ## The two-step frame test of the decode loop -/

/-- What the body of the receive loop does with a frame. -/
inductive Verdict where
  | skip
  | accept
  | discard
deriving DecidableEq, Repr

/-- The `if` / `if` chain of the receive loop: the skip test first (`continue`),
then the match test (convert and `break`), else the frame is dropped. -/
def frameVerdict (quality : Int) (position frame_time : FP) : Verdict :=
  if skipTest quality position frame_time then .skip
  else if matchTest quality position frame_time then .accept
  else .discard

/-! # Theorems -/

/-! ## C1: argument validation -/

/-- C1: a request whose dimension is not in 1..4096, or whose position is
below zero, returns `NULL` without having made any call: neither the path
string is acquired nor the container opened, whatever the other arguments and
the environment are. -/
theorem C1_invalid_request_makes_no_call (w : World) (jpath : String) (position : FP)
    (dimension : Int) (use_hw_dec : Bool) (quality : Int)
    (h : dimension ≤ 0 ∨ dimension > 4096 ∨ FP.lt position zero64 = true) :
    (grabThumbnailFast w jpath position dimension use_hw_dec quality).bitmap = none ∧
    (grabThumbnailFast w jpath position dimension use_hw_dec quality).events = [] := by
  unfold grabThumbnailFast
  by_cases hd : dimension ≤ 0 ∨ dimension > 4096
  · simp [hd]
  · have hp : FP.lt position zero64 = true := by
      rcases h with h | h | h
      · exact absurd (Or.inl h) hd
      · exact absurd (Or.inr h) hd
      · exact h
    simp [hd, hp]

/-- C1 at three requests: dimension `0`, dimension `4097`, position `-1.0`. -/
theorem C1_invalid_request_witness :
    ((grabThumbnailFast (sampleWorld []) "clip.mkv" zero64 0 true 1).bitmap = none ∧
      (grabThumbnailFast (sampleWorld []) "clip.mkv" zero64 0 true 1).events = []) ∧
    ((grabThumbnailFast (sampleWorld []) "clip.mkv" zero64 4097 false 2).bitmap = none ∧
      (grabThumbnailFast (sampleWorld []) "clip.mkv" zero64 4097 false 2).events = []) ∧
    ((grabThumbnailFast (sampleWorld []) "clip.mkv" (binary64.ofInt (-1)) 256 false 0).bitmap
        = none ∧
      (grabThumbnailFast (sampleWorld []) "clip.mkv" (binary64.ofInt (-1)) 256 false 0).events
        = []) :=
  ⟨C1_invalid_request_makes_no_call _ _ _ 0 _ _ (Or.inl (by decide)),
   C1_invalid_request_makes_no_call _ _ _ 4097 _ _ (Or.inr (Or.inl (by decide))),
   C1_invalid_request_makes_no_call _ _ (binary64.ofInt (-1)) 256 _ _
     (Or.inr (Or.inr (by decide)))⟩

/-! ## Floating point: bit length -/

theorem bitLenSlow_spec (fuel : Nat) : ∀ n, n ≤ fuel →
    n < 2 ^ bitLenSlow fuel n ∧ (n ≠ 0 → 2 ^ (bitLenSlow fuel n - 1) ≤ n) := by
  induction fuel with
  | zero =>
    intro n hn
    have : n = 0 := by omega
    subst this
    simp [bitLenSlow]
  | succ f ih =>
    intro n hn
    unfold bitLenSlow
    by_cases h0 : n = 0
    · subst h0; simp
    · simp only [h0, if_false]
      have hle : n / 2 ≤ f := by omega
      obtain ⟨h1, h2⟩ := ih (n / 2) hle
      refine ⟨?_, fun _ => ?_⟩
      · rw [pow_succ]; omega
      · simp only [Nat.add_sub_cancel]
        by_cases hz : n / 2 = 0
        · have hb : bitLenSlow f 0 = 0 := by cases f <;> simp [bitLenSlow]
          rw [hz, hb]
          simp only [pow_zero]
          omega
        · have h3 := h2 hz
          have hpos : bitLenSlow f (n / 2) ≠ 0 := by
            intro hc
            rw [hc] at h1
            simp at h1
            exact hz h1
          obtain ⟨m, hm⟩ := Nat.exists_eq_succ_of_ne_zero hpos
          rw [hm] at h3 ⊢
          simp only [Nat.succ_sub_one] at h3
          rw [pow_succ]
          omega

theorem bitLenFast_spec (k : Nat) : ∀ n, n < 2 ^ 2 ^ k →
    n < 2 ^ bitLenFast k n ∧ (n ≠ 0 → 2 ^ (bitLenFast k n - 1) ≤ n) := by
  induction k with
  | zero =>
    intro n hn
    simp at hn
    unfold bitLenFast
    by_cases h0 : n = 0
    · subst h0; simp
    · have : n = 1 := by omega
      subst this; simp
  | succ k ih =>
    intro n hn
    unfold bitLenFast
    have hP : 0 < 2 ^ 2 ^ k := Nat.two_pow_pos _
    by_cases hge : 2 ^ 2 ^ k ≤ n
    · simp only [hge, if_true]
      have hsq : 2 ^ 2 ^ (k + 1) = 2 ^ 2 ^ k * 2 ^ 2 ^ k := by
        rw [pow_succ, pow_mul, pow_two]
      have hm : n / 2 ^ 2 ^ k < 2 ^ 2 ^ k := by
        rw [Nat.div_lt_iff_lt_mul hP, ← hsq]; exact hn
      have hm0 : n / 2 ^ 2 ^ k ≠ 0 := by
        have h1 : 1 ≤ n / 2 ^ 2 ^ k :=
          (Nat.le_div_iff_mul_le hP).2 (by rw [one_mul]; exact hge)
        omega
      obtain ⟨h1, h2⟩ := ih _ hm
      have h3 := h2 hm0
      have hpos : bitLenFast k (n / 2 ^ 2 ^ k) ≠ 0 := by
        intro hc
        rw [hc] at h1
        simp at h1
        omega
      obtain ⟨m, hm'⟩ := Nat.exists_eq_succ_of_ne_zero hpos
      rw [hm'] at h1 h3 ⊢
      simp only [Nat.succ_sub_one] at h3
      have hdm := Nat.div_add_mod n (2 ^ 2 ^ k)
      have hmod := Nat.mod_lt n hP
      refine ⟨?_, fun _ => ?_⟩
      · rw [pow_add]
        calc n = 2 ^ 2 ^ k * (n / 2 ^ 2 ^ k) + n % 2 ^ 2 ^ k := hdm.symm
          _ < 2 ^ 2 ^ k * (n / 2 ^ 2 ^ k) + 2 ^ 2 ^ k := Nat.add_lt_add_left hmod _
          _ = (n / 2 ^ 2 ^ k + 1) * 2 ^ 2 ^ k := by ring
          _ ≤ 2 ^ m.succ * 2 ^ 2 ^ k := Nat.mul_le_mul_right _ h1
      · have : m.succ + 2 ^ k - 1 = m + 2 ^ k := by rw [Nat.succ_add, Nat.succ_sub_one]
        rw [this, pow_add]
        calc 2 ^ m * 2 ^ 2 ^ k ≤ (n / 2 ^ 2 ^ k) * 2 ^ 2 ^ k := Nat.mul_le_mul_right _ h3
          _ ≤ n := Nat.div_mul_le_self _ _
    · simp only [hge, if_false]
      exact ih n (by omega)

theorem bitLen_spec (n : Nat) :
    n < 2 ^ bitLen n ∧ (n ≠ 0 → 2 ^ (bitLen n - 1) ≤ n) := by
  unfold bitLen
  by_cases h : n < 2 ^ 2 ^ 13
  · rw [if_pos h]; exact bitLenFast_spec 13 n h
  · rw [if_neg h]; exact bitLenSlow_spec n n le_rfl

theorem bitLen_eq_size (n : Nat) : bitLen n = Nat.size n := by
  obtain ⟨h1, h2⟩ := bitLen_spec n
  apply le_antisymm
  · by_cases h0 : n = 0
    · subst h0
      have : bitLen 0 = 0 := by decide
      omega
    · have h3 := h2 h0
      have := (Nat.lt_size).2 h3
      omega
  · exact (Nat.size_le).2 h1

/-! ## Floating point: rounding -/

theorem le_rne (n d : Nat) : n / d ≤ rne n d := by
  unfold rne
  split_ifs <;> omega

theorem rne_le (n d : Nat) : rne n d ≤ n / d + 1 := by
  unfold rne
  split_ifs <;> omega

theorem rne_of_dvd (n d : Nat) (hd : 0 < d) (h : d ∣ n) : rne n d = n / d := by
  unfold rne
  have : n % d = 0 := Nat.mod_eq_zero_of_dvd h
  rw [this]
  simp [hd]

theorem rne_mono (d : Nat) (hd : 0 < d) {n m : Nat} (h : n ≤ m) : rne n d ≤ rne m d := by
  have hq : n / d ≤ m / d := Nat.div_le_div_right h
  rcases Nat.lt_or_eq_of_le hq with hlt | heq
  · calc rne n d ≤ n / d + 1 := rne_le n d
      _ ≤ m / d := hlt
      _ ≤ rne m d := le_rne m d
  · have h1 := Nat.div_add_mod n d
    have h2 := Nat.div_add_mod m d
    have h3 := Nat.mod_lt n hd
    have h4 := Nat.mod_lt m hd
    unfold rne
    rw [← heq] at h2 ⊢
    split_ifs <;> omega

theorem roundMag_one (p n : Nat) :
    roundMag p n 1 = rne n (2 ^ (Nat.size n - p)) * 2 ^ (Nat.size n - p) := by
  simp [roundMag, bitLen_eq_size]

theorem roundMag_one_le (p n : Nat) : roundMag p n 1 ≤ 2 ^ Nat.size n := by
  rw [roundMag_one]
  by_cases hs : Nat.size n - p ≤ Nat.size n
  · have hlt : n < 2 ^ Nat.size n := Nat.lt_size_self n
    have hpos : 0 < 2 ^ (Nat.size n - p) := Nat.two_pow_pos _
    have hsplit : 2 ^ Nat.size n = 2 ^ (Nat.size n - (Nat.size n - p)) * 2 ^ (Nat.size n - p) := by
      rw [← pow_add]; congr 1; omega
    have hq : n / 2 ^ (Nat.size n - p) < 2 ^ (Nat.size n - (Nat.size n - p)) := by
      rw [Nat.div_lt_iff_lt_mul hpos, ← hsplit]; exact hlt
    calc rne n (2 ^ (Nat.size n - p)) * 2 ^ (Nat.size n - p)
        ≤ (n / 2 ^ (Nat.size n - p) + 1) * 2 ^ (Nat.size n - p) :=
          Nat.mul_le_mul_right _ (rne_le _ _)
      _ ≤ 2 ^ (Nat.size n - (Nat.size n - p)) * 2 ^ (Nat.size n - p) :=
          Nat.mul_le_mul_right _ hq
      _ = 2 ^ Nat.size n := hsplit.symm
  · omega

theorem le_roundMag_one (p n : Nat) (hp : 1 ≤ p) (hs : p < Nat.size n) :
    2 ^ (Nat.size n - 1) ≤ roundMag p n 1 := by
  rw [roundMag_one]
  have hpos : 0 < 2 ^ (Nat.size n - p) := Nat.two_pow_pos _
  have hlow : 2 ^ (Nat.size n - 1) ≤ n := (Nat.lt_size).1 (by omega)
  have hsplit : 2 ^ (Nat.size n - 1) = 2 ^ (p - 1) * 2 ^ (Nat.size n - p) := by
    rw [← pow_add]; congr 1; omega
  have hq : 2 ^ (p - 1) ≤ n / 2 ^ (Nat.size n - p) := by
    rw [Nat.le_div_iff_mul_le hpos, ← hsplit]; exact hlow
  calc 2 ^ (Nat.size n - 1) = 2 ^ (p - 1) * 2 ^ (Nat.size n - p) := hsplit
    _ ≤ n / 2 ^ (Nat.size n - p) * 2 ^ (Nat.size n - p) := Nat.mul_le_mul_right _ hq
    _ ≤ rne n (2 ^ (Nat.size n - p)) * 2 ^ (Nat.size n - p) :=
        Nat.mul_le_mul_right _ (le_rne _ _)

/-- Rounding an integer count is monotone. -/
theorem roundMag_one_mono (p : Nat) (hp : 1 ≤ p) {n m : Nat} (h : n ≤ m) :
    roundMag p n 1 ≤ roundMag p m 1 := by
  have hsz : Nat.size n ≤ Nat.size m := Nat.size_le_size h
  by_cases heq : Nat.size n - p = Nat.size m - p
  · rw [roundMag_one, roundMag_one, heq]
    exact Nat.mul_le_mul_right _ (rne_mono _ (Nat.two_pow_pos _) h)
  · have h1 : Nat.size n < Nat.size m := by omega
    have h2 : p < Nat.size m := by omega
    calc roundMag p n 1 ≤ 2 ^ Nat.size n := roundMag_one_le p n
      _ ≤ 2 ^ (Nat.size m - 1) := Nat.pow_le_pow_right (by norm_num) (by omega)
      _ ≤ roundMag p m 1 := le_roundMag_one p m hp h2

/-! ## Floating point: order -/

theorem FP.lt_of_lt_of_not_lt {t s m : FP} (h1 : FP.lt t s = true) (h2 : FP.lt m s = false)
    (hm : m ≠ .nan) : FP.lt t m = true := by
  cases t <;> cases s <;> cases m <;> simp_all [FP.lt]
  omega

theorem FP.not_ge_of_lt {t m : FP} (h : FP.lt t m = true) : FP.ge t m = false := by
  cases t <;> cases m <;> simp_all [FP.lt, FP.ge, FP.eq]
  omega

theorem round_ne_nan (f : FloatFormat) (neg : Bool) (n d : Nat) : f.round neg n d ≠ .nan := by
  unfold FloatFormat.round
  split_ifs <;> simp

/-- Rounding an integer count, with its sign, is monotone. -/
theorem round_int_mono (f : FloatFormat) (hp : 1 ≤ f.prec) {x y : Int} (h : x ≤ y) :
    FP.lt (f.round (decide (y < 0)) y.natAbs 1) (f.round (decide (x < 0)) x.natAbs 1)
      = false := by
  unfold FloatFormat.round
  by_cases hx : x < 0 <;> by_cases hy : y < 0
  · have hm := roundMag_one_mono f.prec hp (show y.natAbs ≤ x.natAbs by omega)
    simp only [hx, hy, decide_True, if_true]
    by_cases h1 : 2 ^ (f.emax + f.ulp) ≤ roundMag f.prec y.natAbs 1
    · have h2 : 2 ^ (f.emax + f.ulp) ≤ roundMag f.prec x.natAbs 1 := le_trans h1 hm
      simp [h1, h2, FP.lt]
    · by_cases h2 : 2 ^ (f.emax + f.ulp) ≤ roundMag f.prec x.natAbs 1
      · simp [h1, h2, FP.lt]
      · simp only [h1, h2, if_false, FP.lt, decide_eq_false_iff_not]
        omega
  · simp only [hx, hy, decide_True, decide_False, if_true, Bool.false_eq_true, if_false]
    by_cases h1 : 2 ^ (f.emax + f.ulp) ≤ roundMag f.prec y.natAbs 1 <;>
      by_cases h2 : 2 ^ (f.emax + f.ulp) ≤ roundMag f.prec x.natAbs 1
    · simp [h1, h2, FP.lt]
    · simp [h1, h2, FP.lt]
    · simp [h1, h2, FP.lt]
    · simp only [h1, h2, if_false, FP.lt, decide_eq_false_iff_not]
      omega
  · omega
  · have hm := roundMag_one_mono f.prec hp (show x.natAbs ≤ y.natAbs by omega)
    simp only [hx, hy, decide_False, Bool.false_eq_true, if_false]
    by_cases h2 : 2 ^ (f.emax + f.ulp) ≤ roundMag f.prec x.natAbs 1
    · have h1 : 2 ^ (f.emax + f.ulp) ≤ roundMag f.prec y.natAbs 1 := le_trans h2 hm
      simp [h1, h2, FP.lt]
    · by_cases h1 : 2 ^ (f.emax + f.ulp) ≤ roundMag f.prec y.natAbs 1
      · simp [h1, h2, FP.lt]
      · simp only [h1, h2, if_false, FP.lt, decide_eq_false_iff_not]
        omega

/-- Subtracting more gives no more: `p - s ≤ p - m` when `m ≤ s`. -/
theorem sub_anti (f : FloatFormat) (hp : 1 ≤ f.prec) (p : FP) {s m : Int} (h : m ≤ s) :
    FP.lt (f.sub p (.fin m)) (f.sub p (.fin s)) = false := by
  cases p with
  | fin k => exact round_int_mono f hp (show k - s ≤ k - m by omega)
  | pinf => simp [FloatFormat.sub, FP.lt]
  | ninf => simp [FloatFormat.sub, FP.lt]
  | nan => simp [FloatFormat.sub, FP.lt]

set_option maxRecDepth 10000 in
theorem tolerance_values (quality : Int) :
    ∃ s m : Int, skipTolerance quality = .fin s ∧ matchTolerance quality = .fin m ∧ m ≤ s := by
  unfold skipTolerance matchTolerance
  by_cases h0 : quality = QUALITY_FAST
  · refine ⟨3 * (2 ^ 1074 : Nat), 2 * (2 ^ 1074 : Nat), ?_, ?_, ?_⟩
    · rw [if_pos h0]; decide
    · rw [if_pos h0]; decide
    · omega
  · by_cases h2 : quality = QUALITY_HQ
    · refine ⟨(2 ^ 1073 : Nat), (2 ^ 1073 : Nat), ?_, ?_, le_rfl⟩
      · rw [if_neg h0, if_pos h2]; decide
      · rw [if_neg h0, if_pos h2]; decide
    · refine ⟨3 * (2 ^ 1073 : Nat), (2 ^ 1074 : Nat), ?_, ?_, ?_⟩
      · rw [if_neg h0, if_neg h2]; decide
      · rw [if_neg h0, if_neg h2]; decide
      · have : (2 : Nat) ^ 1074 = 2 * 2 ^ 1073 := by rw [← pow_succ']
        push_cast [this]

/-- A frame the skip test discards fails the match test: the skip branch
never drops a frame the match test would take. -/
theorem skip_not_match (quality : Int) (position t : FP)
    (h : skipTest quality position t = true) : matchTest quality position t = false := by
  obtain ⟨s, m, hs, hm, hle⟩ := tolerance_values quality
  unfold skipTest at h
  unfold matchTest
  rw [hs] at h
  rw [hm]
  simp only [Bool.and_eq_true] at h
  obtain ⟨hpos, hlt⟩ := h
  have hz : zero64 = .fin 0 := by decide
  rw [hz] at hpos
  have hne : (binary64.sub position (.fin m)) ≠ .nan := by
    cases position with
    | fin k => exact round_ne_nan _ _ _ _
    | pinf => simp [FloatFormat.sub]
    | ninf => simp [FloatFormat.sub]
    | nan => simp [FP.lt] at hpos
  have h1 := FP.lt_of_lt_of_not_lt hlt (sub_anti binary64 (by decide) position hle) hne
  have h2 := FP.not_ge_of_lt h1
  have h3 : FP.eq position zero64 = false := by
    rw [hz]
    cases position <;> simp_all [FP.lt, FP.eq]
    omega
  simp [h2, h3]

/-! ## The decode loop: which frames are converted -/

theorem convertedFrames_append (xs ys : List Event) :
    convertedFrames (xs ++ ys) = convertedFrames xs ++ convertedFrames ys := by
  induction xs with
  | nil => rfl
  | cons e es ih => cases e <;> simp [convertedFrames, ih]

theorem convertedFrames_frame_to_bitmap (frame : AVFrame) (t q : Int) :
    convertedFrames (frame_to_bitmap frame t q).2 = [] := by
  unfold frame_to_bitmap
  simp only []
  split_ifs <;> rfl

theorem frame_to_bitmap_source (frame : AVFrame) (t q : Int) (b : Bitmap)
    (h : (frame_to_bitmap frame t q).1 = some b) : b.source = frame := by
  unfold frame_to_bitmap at h
  simp only [] at h
  split_ifs at h
  all_goals simp at h
  rw [← h]

/-- The inner loop either finds no frame that passes the match test and then
drains the decoder, or converts exactly the first frame that passes. -/
theorem receiveFrames_cases (a : DecodeArgs) (q : List AVFrame) : ∀ n : Nat,
    ((∀ g ∈ q, accepts a g = false) ∧ (receiveFrames a q n).bitmap = none ∧
      (receiveFrames a q n).queue = [] ∧ (receiveFrames a q n).frames_decoded = n + q.length ∧
      convertedFrames (receiveFrames a q n).events = []) ∨
    (∃ f, q.find? (accepts a) = some f ∧ q.findIdx (accepts a) < q.length ∧
      convertedFrames (receiveFrames a q n).events = [f] ∧
      (receiveFrames a q n).bitmap = (frame_to_bitmap f a.dimension a.quality).1) := by
  induction q with
  | nil => intro n; left; simp [receiveFrames, convertedFrames]
  | cons f rest ih =>
    intro n
    have hstep : accepts a f = false →
        ((∀ g ∈ f :: rest, accepts a g = false) ∧
          (receiveFrames a rest (n + 1)).bitmap = none ∧
          (receiveFrames a rest (n + 1)).queue = [] ∧
          (receiveFrames a rest (n + 1)).frames_decoded = n + (f :: rest).length ∧
          convertedFrames ([Event.avcodec_receive_frame true, Event.av_frame_unref] ++
            (receiveFrames a rest (n + 1)).events) = []) ∨
        (∃ f', (f :: rest).find? (accepts a) = some f' ∧
          (f :: rest).findIdx (accepts a) < (f :: rest).length ∧
          convertedFrames ([Event.avcodec_receive_frame true, Event.av_frame_unref] ++
            (receiveFrames a rest (n + 1)).events) = [f'] ∧
          (receiveFrames a rest (n + 1)).bitmap
            = (frame_to_bitmap f' a.dimension a.quality).1) := by
      intro hf
      rcases ih (n + 1) with ⟨h1, h2, h3, h4, h5⟩ | ⟨f', h1, h2, h3, h4⟩
      · left
        refine ⟨?_, h2, h3, ?_, ?_⟩
        · intro g hg
          rcases List.mem_cons.1 hg with rfl | hg
          · exact hf
          · exact h1 g hg
        · rw [h4, List.length_cons]; omega
        · rw [convertedFrames_append, h5]; rfl
      · right
        refine ⟨f', ?_, ?_, ?_, h4⟩
        · rw [List.find?_cons, hf]; exact h1
        · rw [List.findIdx_cons, hf, List.length_cons]; simpa using h2
        · rw [convertedFrames_append, h3]; rfl
    unfold receiveFrames
    by_cases hk : skipTest a.quality a.position (frameTime a.time_base f) = true
    · simp only [hk, if_true]
      exact hstep (skip_not_match _ _ _ hk)
    · simp only [hk, Bool.false_eq_true, if_false]
      by_cases hm : matchTest a.quality a.position (frameTime a.time_base f) = true
      · simp only [hm, if_true]
        right
        refine ⟨f, ?_, ?_, ?_, rfl⟩
        · rw [List.find?_cons]; simp [accepts, hm]
        · rw [List.findIdx_cons]; simp [accepts, hm]
        · rw [convertedFrames_append, convertedFrames_frame_to_bitmap]; rfl
      · simp only [hm, Bool.false_eq_true, if_false]
        exact hstep (by simpa [accepts] using hm)

theorem decodeOrder_cons_video (idx : Int) (p : AVPacket) (ps : List AVPacket)
    (hv : p.stream_index = idx) (hs : p.send_packet = true) :
    decodeOrder idx (p :: ps) = p.frames ++ decodeOrder idx ps := by
  simp [decodeOrder, hv, hs]

theorem decodeOrder_cons_other (idx : Int) (p : AVPacket) (ps : List AVPacket)
    (h : ¬ (p.stream_index = idx ∧ p.send_packet = true)) :
    decodeOrder idx (p :: ps) = decodeOrder idx ps := by
  simp only [decodeOrder, h, if_false]

theorem find?_append_of_none {α : Type} (p : α → Bool) (xs ys : List α)
    (h : ∀ x ∈ xs, p x = false) : (xs ++ ys).find? p = ys.find? p := by
  induction xs with
  | nil => rfl
  | cons x xs ih =>
    rw [List.cons_append, List.find?_cons, h x (List.mem_cons_self _ _)]
    exact ih (fun y hy => h y (List.mem_cons_of_mem _ hy))

theorem find?_append_of_some {α : Type} (p : α → Bool) (xs ys : List α) (x : α)
    (h : xs.find? p = some x) : (xs ++ ys).find? p = some x := by
  induction xs with
  | nil => simp at h
  | cons y xs ih =>
    rw [List.cons_append, List.find?_cons]
    rw [List.find?_cons] at h
    cases hy : p y
    · rw [hy] at h; exact ih h
    · rw [hy] at h; exact h

theorem findIdx_append_of_none {α : Type} (p : α → Bool) (xs ys : List α)
    (h : ∀ x ∈ xs, p x = false) : (xs ++ ys).findIdx p = xs.length + ys.findIdx p := by
  induction xs with
  | nil => simp
  | cons x xs ih =>
    rw [List.cons_append, List.findIdx_cons, h x (List.mem_cons_self _ _),
      ih (fun y hy => h y (List.mem_cons_of_mem _ hy)), List.length_cons]
    simp only [cond_false]
    omega

/-- The first frame the read loop converts, if it converts any, is the first
frame in decode order that passes the match test. -/
theorem readPackets_first_converted (a : DecodeArgs) (ps : List AVPacket) :
    ∀ (n : Nat) (f : AVFrame),
      (convertedFrames (readPackets a ps [] n).events).head? = some f →
      (decodeOrder a.video_stream_idx ps).find? (accepts a) = some f := by
  induction ps with
  | nil => intro n f h; simp [readPackets, convertedFrames] at h
  | cons p ps ih =>
    intro n f h
    unfold readPackets at h
    by_cases hn : n < MAX_FRAMES
    · simp only [hn, not_true_eq_false, if_false] at h
      by_cases hv : p.stream_index = a.video_stream_idx
      · simp only [hv, if_true] at h
        by_cases hs : p.send_packet = true
        · simp only [hs, if_true, List.nil_append] at h
          rw [decodeOrder_cons_video _ _ _ hv hs]
          rcases receiveFrames_cases a p.frames n with ⟨h1, h2, h3, h4, h5⟩ | ⟨g, h1, _, h3, _⟩
          · rw [find?_append_of_none _ _ _ h1]
            simp only [h2, Option.isSome_none, Bool.false_eq_true, if_false, h3, h4] at h
            simp only [convertedFrames_append, h5, List.nil_append] at h
            exact ih _ f (by simpa [convertedFrames] using h)
          · rw [find?_append_of_some _ _ _ _ h1]
            split_ifs at h
            · simp only [convertedFrames_append, h3] at h
              simpa [convertedFrames] using h
            · simp only [convertedFrames_append, h3] at h
              simpa [convertedFrames] using h
        · simp only [hs, Bool.false_eq_true, if_false] at h
          rw [decodeOrder_cons_other _ _ _ (by simp [hs])]
          exact ih _ f (by simpa [convertedFrames_append, convertedFrames] using h)
      · simp only [hv, if_false] at h
        rw [decodeOrder_cons_other _ _ _ (by simp [hv])]
        exact ih _ f (by simpa [convertedFrames_append, convertedFrames] using h)
    · simp [hn, convertedFrames] at h

/-- A frame that passes the match test and has fewer than `MAX_FRAMES - n`
frames before it in decode order is reached, so some frame is converted. -/
theorem readPackets_converts (a : DecodeArgs) (ps : List AVPacket) :
    ∀ n : Nat,
      (decodeOrder a.video_stream_idx ps).findIdx (accepts a)
        < (decodeOrder a.video_stream_idx ps).length →
      n + (decodeOrder a.video_stream_idx ps).findIdx (accepts a) < MAX_FRAMES →
      convertedFrames (readPackets a ps [] n).events ≠ [] := by
  induction ps with
  | nil => intro n h; simp [decodeOrder] at h
  | cons p ps ih =>
    intro n hlen hidx
    have hn : n < MAX_FRAMES := by omega
    unfold readPackets
    simp only [hn, not_true_eq_false, if_false]
    by_cases hv : p.stream_index = a.video_stream_idx
    · simp only [hv, if_true]
      by_cases hs : p.send_packet = true
      · simp only [hs, if_true, List.nil_append]
        rw [decodeOrder_cons_video _ _ _ hv hs] at hlen hidx
        rcases receiveFrames_cases a p.frames n with ⟨h1, h2, h3, h4, h5⟩ | ⟨g, _, _, h3, _⟩
        · rw [findIdx_append_of_none _ _ _ h1] at hlen hidx
          rw [List.length_append] at hlen
          simp only [h2, Option.isSome_none, Bool.false_eq_true, if_false, h3, h4]
          simp only [convertedFrames_append, h5, List.nil_append]
          have := ih (n + p.frames.length) (by omega) (by omega)
          simpa [convertedFrames] using this
        · split_ifs
          · simp [convertedFrames, convertedFrames_append, h3]
          · simp [convertedFrames, convertedFrames_append, h3]
      · simp only [hs, Bool.false_eq_true, if_false]
        rw [decodeOrder_cons_other _ _ _ (by simp [hs])] at hlen hidx
        have := ih n hlen hidx
        simpa [convertedFrames_append, convertedFrames] using this
    · simp only [hv, if_false]
      rw [decodeOrder_cons_other _ _ _ (by simp [hv])] at hlen hidx
      have := ih n hlen hidx
      simpa [convertedFrames_append, convertedFrames] using this

theorem receiveFrames_converted (a : DecodeArgs) (q : List AVFrame) (n : Nat) :
    (∀ f ∈ convertedFrames (receiveFrames a q n).events, accepts a f = true) ∧
    (∀ b, (receiveFrames a q n).bitmap = some b →
      b.source ∈ convertedFrames (receiveFrames a q n).events) := by
  rcases receiveFrames_cases a q n with ⟨_, h2, _, _, h5⟩ | ⟨g, h1, _, h3, h4⟩
  · rw [h5, h2]; simp
  · rw [h3, h4]
    refine ⟨?_, ?_⟩
    · intro f hf
      rw [List.mem_singleton] at hf
      rw [hf]
      exact List.find?_some h1
    · intro b hb
      rw [frame_to_bitmap_source _ _ _ _ hb]
      exact List.mem_singleton_self _

/-- Whatever the decoder still holds, every frame the read loop converts
passes the match test, and a returned image shows a converted frame. -/
theorem readPackets_converted (a : DecodeArgs) (ps : List AVPacket) :
    ∀ (q : List AVFrame) (n : Nat),
      (∀ f ∈ convertedFrames (readPackets a ps q n).events, accepts a f = true) ∧
      (∀ b, (readPackets a ps q n).bitmap = some b →
        b.source ∈ convertedFrames (readPackets a ps q n).events) := by
  induction ps with
  | nil => intro q n; simp [readPackets, convertedFrames]
  | cons p ps ih =>
    intro q n
    have c1 : convertedFrames [Event.av_read_frame true, Event.avcodec_send_packet true] = [] :=
      rfl
    have c2 : convertedFrames [Event.av_packet_unref] = [] := rfl
    have c3 : convertedFrames [Event.av_read_frame true, Event.avcodec_send_packet false,
        Event.av_packet_unref] = [] := rfl
    have c4 : convertedFrames [Event.av_read_frame true, Event.av_packet_unref] = [] := rfl
    unfold readPackets
    by_cases hn : n < MAX_FRAMES
    · simp only [hn, not_true_eq_false, if_false]
      by_cases hv : p.stream_index = a.video_stream_idx
      · simp only [hv, if_true]
        by_cases hs : p.send_packet = true
        · simp only [hs, if_true]
          obtain ⟨r1, r2⟩ := receiveFrames_converted a (q ++ p.frames) n
          split_ifs with hb
          · simp only [convertedFrames_append, c1, c2, List.nil_append, List.append_nil]
            exact ⟨r1, r2⟩
          · obtain ⟨d1, d2⟩ := ih (receiveFrames a (q ++ p.frames) n).queue
              (receiveFrames a (q ++ p.frames) n).frames_decoded
            simp only [convertedFrames_append, c1, c2, List.nil_append, List.append_nil,
              List.mem_append]
            refine ⟨?_, ?_⟩
            · intro f hf
              rcases hf with hf | hf
              · exact r1 f hf
              · exact d1 f hf
            · intro b hb'
              exact Or.inr (d2 b hb')
        · simp only [hs, Bool.false_eq_true, if_false]
          obtain ⟨d1, d2⟩ := ih q n
          simp only [convertedFrames_append, c3, List.nil_append]
          exact ⟨d1, d2⟩
      · simp only [hv, if_false]
        obtain ⟨d1, d2⟩ := ih q n
        simp only [convertedFrames_append, c4, List.nil_append]
        exact ⟨d1, d2⟩
    · simp [hn, convertedFrames]

/-- A returned image is the one the read loop produced for the selected
stream, the request having passed validation. -/
theorem grabThumbnailFast_bitmap (w : World) (jpath : String) (position : FP)
    (dimension : Int) (use_hw_dec : Bool) (quality : Int) (b : Bitmap)
    (h : (grabThumbnailFast w jpath position dimension use_hw_dec quality).bitmap = some b) :
    ∃ idx stream, findVideoStream w.streams 0 = some (idx, stream) ∧
      (readPackets ⟨idx, stream.time_base, position, dimension, clampQuality quality⟩
        w.packets [] 0).bitmap = some b := by
  unfold grabThumbnailFast at h
  split_ifs at h
  cases hf : findVideoStream w.streams 0 with
  | none => rw [hf] at h; simp at h
  | some pr =>
    obtain ⟨idx, stream⟩ := pr
    rw [hf] at h
    refine ⟨idx, stream, rfl, ?_⟩
    simp only [Outcome.after, decoderStage] at h
    split_ifs at h
    simp only [seekStage, Outcome.after, decodeStage] at h
    split_ifs at h
    all_goals try (simp at h)
    all_goals exact h

/-! ## C2: the frame selected by the decode loop -/

/-- C2: in the decode loop of `grabThumbnailFast`, started as the function
starts it, the first frame handed to `frame_to_bitmap` is the first frame in
decode order that passes `position == 0 || frame_time >= position -
match_tolerance`; such a frame is reached whenever fewer than `MAX_FRAMES`
frames precede it; every returned image shows a frame that passes the test, so
for `position > 0` its time is at least `position - match_tolerance` (at
NORMAL and position `10.0`, at least `9.0`); and for `position == 0` the first
decoded frame is the one converted. -/
theorem C2_first_matching_frame_is_converted (a : DecodeArgs) (packets : List AVPacket) :
    (∀ f, (convertedFrames (readPackets a packets [] 0).events).head? = some f →
      (decodeOrder a.video_stream_idx packets).find? (accepts a) = some f) ∧
    ((decodeOrder a.video_stream_idx packets).findIdx (accepts a)
        < (decodeOrder a.video_stream_idx packets).length →
      (decodeOrder a.video_stream_idx packets).findIdx (accepts a) < MAX_FRAMES →
      (convertedFrames (readPackets a packets [] 0).events).head?
        = (decodeOrder a.video_stream_idx packets).find? (accepts a)) ∧
    (∀ b, (readPackets a packets [] 0).bitmap = some b →
      b.source ∈ convertedFrames (readPackets a packets [] 0).events ∧
      matchTest a.quality a.position (frameTime a.time_base b.source) = true ∧
      (FP.lt zero64 a.position = true →
        FP.ge (frameTime a.time_base b.source)
          (binary64.sub a.position (matchTolerance a.quality)) = true) ∧
      (a.quality = QUALITY_NORMAL → a.position = binary64.ofInt 10 →
        FP.ge (frameTime a.time_base b.source) (binary64.ofInt 9) = true)) ∧
    (FP.eq a.position zero64 = true →
      (convertedFrames (readPackets a packets [] 0).events).head?
        = (decodeOrder a.video_stream_idx packets).head?) ∧
    (∀ (w : World) (jpath : String) (use_hw_dec : Bool) (quality : Int) (b : Bitmap),
      (grabThumbnailFast w jpath a.position a.dimension use_hw_dec quality).bitmap = some b →
      ∃ idx stream, findVideoStream w.streams 0 = some (idx, stream) ∧
        matchTest (clampQuality quality) a.position (frameTime stream.time_base b.source)
          = true) := by
  have hfirst := readPackets_first_converted a packets 0
  have hsome : (decodeOrder a.video_stream_idx packets).findIdx (accepts a)
        < (decodeOrder a.video_stream_idx packets).length →
      (decodeOrder a.video_stream_idx packets).findIdx (accepts a) < MAX_FRAMES →
      (convertedFrames (readPackets a packets [] 0).events).head?
        = (decodeOrder a.video_stream_idx packets).find? (accepts a) := by
    intro h1 h2
    have hne := readPackets_converts a packets 0 h1 (by omega)
    cases hc : convertedFrames (readPackets a packets [] 0).events with
    | nil => exact absurd hc hne
    | cons f fs =>
      have := hfirst f (by rw [hc]; rfl)
      rw [this]; rfl
  have hpass : ∀ b, (readPackets a packets [] 0).bitmap = some b →
      b.source ∈ convertedFrames (readPackets a packets [] 0).events ∧
      matchTest a.quality a.position (frameTime a.time_base b.source) = true := by
    intro b hb
    obtain ⟨h1, h2⟩ := readPackets_converted a packets [] 0
    exact ⟨h2 b hb, h1 _ (h2 b hb)⟩
  have hge : ∀ (q : Int) (p t : FP), matchTest q p t = true → FP.lt zero64 p = true →
      FP.ge t (binary64.sub p (matchTolerance q)) = true := by
    intro q p t hm hp
    have hz : zero64 = .fin 0 := by decide
    unfold matchTest at hm
    rw [hz] at hp hm
    have hne : FP.eq p (.fin 0) = false := by
      cases p <;> simp_all [FP.lt, FP.eq]
      omega
    simpa [hne] using hm
  refine ⟨hfirst, hsome, ?_, ?_, ?_⟩
  · intro b hb
    obtain ⟨h1, h2⟩ := hpass b hb
    refine ⟨h1, h2, hge _ _ _ h2, ?_⟩
    intro hq hp
    have h3 := hge _ _ _ h2 (by rw [hp]; decide)
    have h4 : binary64.sub (binary64.ofInt 10) (matchTolerance QUALITY_NORMAL)
        = binary64.ofInt 9 := by decide
    rw [hq, hp, h4] at h3
    exact h3
  · intro h0
    have hall : ∀ g, accepts a g = true := by
      intro g
      simp [accepts, matchTest, h0]
    cases hd : decodeOrder a.video_stream_idx packets with
    | nil =>
      cases hc : convertedFrames (readPackets a packets [] 0).events with
      | nil => rfl
      | cons f fs =>
        have := hfirst f (by rw [hc]; rfl)
        rw [hd] at this
        simp at this
    | cons g gs =>
      have hi : (decodeOrder a.video_stream_idx packets).findIdx (accepts a) = 0 := by
        rw [hd, List.findIdx_cons, hall g]; rfl
      have := hsome (by rw [hi, hd]; simp) (by rw [hi]; decide)
      rw [this, hd, List.find?_cons, hall g]
      rfl
  · intro w jpath use_hw_dec quality b hb
    obtain ⟨idx, stream, hf, hr⟩ := grabThumbnailFast_bitmap _ _ _ _ _ _ _ hb
    refine ⟨idx, stream, hf, ?_⟩
    obtain ⟨h1, h2⟩ := readPackets_converted
      ⟨idx, stream.time_base, a.position, a.dimension, clampQuality quality⟩ w.packets [] 0
    exact h1 _ (h2 b hr)

set_option maxRecDepth 100000 in
/-- C2 on the sample loop: the frames at 0 s and 8.5 s are passed over and the
frame at 9 s, the first with `frame_time >= 10.0 - 1.0`, is the one
converted. -/
theorem C2_first_matching_frame_witness :
    (decodeOrder sampleArgs.video_stream_idx samplePackets).find? (accepts sampleArgs)
      = some (frameAt 810000 hostOk) :=
  (C2_first_matching_frame_is_converted sampleArgs samplePackets).1 (frameAt 810000 hostOk)
    (by decide)

/-! ## Floating point: values that need no rounding -/

theorem size_mul_pow_le (p m u : Nat) (hm : m < 2 ^ p) : Nat.size (m * 2 ^ u) ≤ p + u := by
  rw [Nat.size_le, pow_add]
  exact Nat.mul_lt_mul_of_pos_right hm (Nat.two_pow_pos u)

/-- A quantity with at most `p` significant bits is left unchanged. -/
theorem roundMag_exact (p m u d n : Nat) (hd : 0 < d) (hn : n = d * (m * 2 ^ u))
    (hm : m < 2 ^ p) : roundMag p n d = m * 2 ^ u := by
  have hq : n / d = m * 2 ^ u := by rw [hn, Nat.mul_div_cancel_left _ hd]
  unfold roundMag
  rw [hq, bitLen_eq_size]
  have hs : Nat.size (m * 2 ^ u) - p ≤ u := by
    have := size_mul_pow_le p m u hm
    omega
  obtain ⟨v, hv⟩ := Nat.exists_eq_add_of_le hs
  have hsplit : (2 : Nat) ^ u = 2 ^ (Nat.size (m * 2 ^ u) - p) * 2 ^ v := by
    rw [← pow_add, ← hv]
  have hpos : 0 < d * 2 ^ (Nat.size (m * 2 ^ u) - p) :=
    Nat.mul_pos hd (Nat.two_pow_pos _)
  have hn2 : n = d * 2 ^ (Nat.size (m * 2 ^ u) - p) * (m * 2 ^ v) := by
    rw [hn]
    conv_lhs => rw [hsplit]
    ring
  rw [rne_of_dvd _ _ hpos ⟨_, hn2⟩, hn2, Nat.mul_div_cancel_left _ hpos]
  conv_rhs => rw [hsplit]
  ring

theorem ofInt_exact (f : FloatFormat) (m : Nat) (hm : m < 2 ^ f.prec) (hp : f.prec ≤ f.emax) :
    f.ofInt (m : Int) = .fin ((m * 2 ^ f.ulp : Nat) : Int) := by
  have hr : roundMag f.prec ((m : Int).natAbs * 2 ^ f.ulp) 1 = m * 2 ^ f.ulp :=
    roundMag_exact f.prec m f.ulp 1 _ Nat.one_pos (by simp) hm
  have hlt : m * 2 ^ f.ulp < 2 ^ (f.emax + f.ulp) := by
    rw [pow_add]
    exact Nat.mul_lt_mul_of_pos_right
      (lt_of_lt_of_le hm (Nat.pow_le_pow_right (by norm_num) hp)) (Nat.two_pow_pos _)
  unfold FloatFormat.ofInt FloatFormat.round
  rw [hr]
  have h0 : ¬ ((m : Int) < 0) := by omega
  simp [h0, Nat.not_le.2 hlt]

theorem mul_one_exact (f : FloatFormat) (m : Nat) (hm : m < 2 ^ f.prec) (hp : f.prec ≤ f.emax) :
    f.mul (.fin ((m * 2 ^ f.ulp : Nat) : Int)) (.fin ((1 * 2 ^ f.ulp : Nat) : Int))
      = .fin ((m * 2 ^ f.ulp : Nat) : Int) := by
  have hr : roundMag f.prec
      (((m * 2 ^ f.ulp : Nat) : Int).natAbs * ((1 * 2 ^ f.ulp : Nat) : Int).natAbs)
      (2 ^ f.ulp) = m * 2 ^ f.ulp :=
    roundMag_exact f.prec m f.ulp _ _ (Nat.two_pow_pos _)
      (by simp only [Int.natAbs_ofNat]; ring) hm
  have hlt : m * 2 ^ f.ulp < 2 ^ (f.emax + f.ulp) := by
    rw [pow_add]
    exact Nat.mul_lt_mul_of_pos_right
      (lt_of_lt_of_le hm (Nat.pow_le_pow_right (by norm_num) hp)) (Nat.two_pow_pos _)
  simp only [FloatFormat.mul, FloatFormat.round]
  rw [hr]
  have h0 : ¬ (((m * 2 ^ f.ulp : Nat) : Int) * ((1 * 2 ^ f.ulp : Nat) : Int) < 0) := by
    have := Int.mul_nonneg (Int.ofNat_nonneg (m * 2 ^ f.ulp)) (Int.ofNat_nonneg (1 * 2 ^ f.ulp))
    omega
  simp only [h0, decide_False, Bool.false_eq_true, if_false, Nat.not_le.2 hlt]

theorem trunc_exact (f : FloatFormat) (m : Nat) :
    f.trunc (.fin ((m * 2 ^ f.ulp : Nat) : Int)) = (m : Int) := by
  simp only [FloatFormat.trunc]
  rw [← Int.ofNat_tdiv, Nat.mul_div_cancel _ (Nat.two_pow_pos _)]

/-- A side below `2^24` times the factor `1.0f` comes back unchanged. -/
theorem scale_by_one (w : Int) (h0 : 0 ≤ w) (h1 : w < 2 ^ 24) :
    binary32.trunc (binary32.mul (binary32.ofInt w) one32) = w := by
  obtain ⟨m, rfl⟩ := Int.eq_ofNat_of_zero_le h0
  have hm : m < 2 ^ binary32.prec := by
    have : (m : Int) < ((2 ^ 24 : Nat) : Int) := by simpa using h1
    exact Int.ofNat_lt.1 this
  have h1' : one32 = .fin ((1 * 2 ^ binary32.ulp : Nat) : Int) :=
    ofInt_exact binary32 1 (by decide) (by decide)
  rw [h1', ofInt_exact binary32 m hm (by decide), mul_one_exact binary32 m hm (by decide),
    trunc_exact]

/-! ## C3: one conversion per request -/

set_option maxRecDepth 100000 in
/-- C3 (what the code does): two video packets with one frame each, position
`0.0`, `sws_getContext` failing for the first frame. After the failed
conversion the inner loop is left but `frame_found` is still false, so the
outer loop reads the next packet and converts its frame as well: two frames
are handed to `frame_to_bitmap` and the request returns the second image. -/
theorem C3_failed_conversion_is_retried :
    convertedFrames
        (grabThumbnailFast
          (sampleWorld [⟨1, true, [frameAt 0 hostNoSws]⟩, ⟨1, true, [frameAt 3000 hostOk]⟩])
          "clip.mkv" zero64 256 false 1).events
      = [frameAt 0 hostNoSws, frameAt 3000 hostOk] ∧
    (grabThumbnailFast
        (sampleWorld [⟨1, true, [frameAt 0 hostNoSws]⟩, ⟨1, true, [frameAt 3000 hostOk]⟩])
        "clip.mkv" zero64 256 false 1).bitmap
      = some ⟨frameAt 3000 hostOk, 256, 144, .SWS_POINT⟩ := by
  decide

/-! ## C4: the ceiling on decoded frames -/

set_option maxRecDepth 1000000 in
/-- C4 (what the code does): position `100.0` beyond every frame, 299 video
packets with one frame each and then a packet for which the decoder yields two
frames. `frames_decoded < MAX_FRAMES` is tested only between packets, so the
inner loop receives both frames of the last packet and `frames_decoded`
reaches 301; the result is `NULL`. -/
theorem C4_frames_decoded_exceeds_ceiling :
    (readPackets ⟨1, ⟨1, 90000⟩, binary64.ofInt 100, 256, 1⟩
        (List.replicate 299 ⟨1, true, [frameAt 0 hostOk]⟩
          ++ [⟨1, true, [frameAt 3000 hostOk, frameAt 6000 hostOk]⟩]) [] 0).frames_decoded
      = 301 ∧
    (grabThumbnailFast
        (sampleWorld (List.replicate 299 ⟨1, true, [frameAt 0 hostOk]⟩
          ++ [⟨1, true, [frameAt 3000 hostOk, frameAt 6000 hostOk]⟩]))
        "clip.mkv" (binary64.ofInt 100) 256 false 1).events.count
          (.avcodec_receive_frame true)
      = 301 ∧
    (grabThumbnailFast
        (sampleWorld (List.replicate 299 ⟨1, true, [frameAt 0 hostOk]⟩
          ++ [⟨1, true, [frameAt 3000 hostOk, frameAt 6000 hostOk]⟩]))
        "clip.mkv" (binary64.ofInt 100) 256 false 1).bitmap = none := by
  decide

/-! ## C5 and C6: the output size of `frame_to_bitmap` -/

set_option maxRecDepth 100000 in
/-- C5 (what the code does): for a 1920 by 1080 frame and target 250 the
`float` product `1920 * (250.0f / 1920)` is `249.99998`, which the conversion
to `int` cuts to 249: the output is 249 by 140, its longer side one short of
the target, while `floor (1080 * 250 / 1920) = 140`. With target 256 the
output is 256 by 144. -/
theorem C5_longer_side_falls_short :
    outputSize 1920 1080 250 = (249, 140) ∧
    (frame_to_bitmap (frameAt 0 hostOk) 250 1).1
      = some ⟨frameAt 0 hostOk, 249, 140, .SWS_POINT⟩ ∧
    (1080 * 250 / 1920 : Int) = 140 ∧
    outputSize 1920 1080 256 = (256, 144) := by
  decide

/-- C6: a frame with positive sides, neither longer than the target, the
target being at most 4096, keeps its own width and height: the size computed
by `frame_to_bitmap`, passed to `sws_getContext` and carried by the returned
image is the size of the frame, so the thumbnail is never scaled up. -/
theorem C6_no_upscaling (width height target_dimension : Int) (hw : 0 < width)
    (hh : 0 < height) (hlw : width ≤ target_dimension) (hlh : height ≤ target_dimension)
    (ht : target_dimension ≤ 4096) :
    outputSize width height target_dimension = (width, height) ∧
    ∀ (frame : AVFrame) (quality : Int), frame.width = width → frame.height = height →
      Event.sws_getContext width height (swsAlgorithm quality) frame.host.sws_ctx
        ∈ (frame_to_bitmap frame target_dimension quality).2 ∧
      ∀ b, (frame_to_bitmap frame target_dimension quality).1 = some b →
        b.width = width ∧ b.height = height := by
  have hs : scaleFactor width height target_dimension = one32 := by
    unfold scaleFactor
    split_ifs <;> first | rfl | omega
  have h1 := scale_by_one width (le_of_lt hw) (by omega)
  have h2 := scale_by_one height (le_of_lt hh) (by omega)
  have hsize : outputSize width height target_dimension = (width, height) := by
    unfold outputSize
    simp only [hs, h1, h2, gt_iff_lt, hw, hh, and_self, if_true]
    have h3 : ¬ width < 1 := by omega
    have h4 : ¬ height < 1 := by omega
    simp [h3, h4]
  refine ⟨hsize, ?_⟩
  intro frame quality hfw hfh
  unfold frame_to_bitmap
  simp only [hfw, hfh, hsize]
  refine ⟨?_, ?_⟩
  · split_ifs with c1 <;> simp_all
  · intro b hb
    split_ifs at hb
    all_goals simp at hb
    rw [← hb]
    exact ⟨rfl, rfl⟩

/-- C6 at a 640 by 480 frame with target 1024, and at a frame whose longer
side equals the target. -/
theorem C6_no_upscaling_witness :
    outputSize 640 480 1024 = (640, 480) ∧ outputSize 300 4096 4096 = (300, 4096) :=
  ⟨(C6_no_upscaling 640 480 1024 (by decide) (by decide) (by decide) (by decide)
      (by decide)).1,
   (C6_no_upscaling 300 4096 4096 (by decide) (by decide) (by decide) (by decide)
      (by decide)).1⟩

/-! ## C7: the quality table -/

theorem clampQuality_cases (quality : Int) :
    (quality = 0 ∧ clampQuality quality = 0 ∧ levelOf quality = .FAST) ∨
    (quality = 2 ∧ clampQuality quality = 2 ∧ levelOf quality = .HQ) ∨
    (quality ≠ 0 ∧ quality ≠ 2 ∧ clampQuality quality = 1 ∧ levelOf quality = .NORMAL) := by
  unfold clampQuality levelOf
  by_cases h0 : quality = 0
  · left; subst h0; simp
  · by_cases h2 : quality = 2
    · right; left; subst h2; simp
    · right; right
      refine ⟨h0, h2, ?_, by simp [h0, h2]⟩
      split_ifs <;> omega

theorem clampQuality_idem (quality : Int) :
    clampQuality (clampQuality quality) = clampQuality quality := by
  rcases clampQuality_cases quality with ⟨_, h, _⟩ | ⟨_, h, _⟩ | ⟨_, _, h, _⟩ <;>
    rw [h] <;> decide

set_option maxRecDepth 10000 in
theorem ofInt_eq_dyadic :
    binary64.ofInt 3 = binary64.dyadic 3 0 ∧ binary64.ofInt 2 = binary64.dyadic 2 0 ∧
    binary64.ofInt 1 = binary64.dyadic 1 0 ∧ binary64.ofInt 5 = binary64.dyadic 5 0 := by
  decide

/-- Each per-stage switch, at the clamped quality, yields the row of the
level. -/
theorem stages_follow_table (quality : Int) :
    ((probeLimits (clampQuality quality)).max_analyze_duration : ℚ)
      = (specQualityTable (levelOf quality)).analysis_seconds * 1000000 ∧
    (probeLimits (clampQuality quality)).probesize
      = (specQualityTable (levelOf quality)).probe_bytes ∧
    (∀ ctx, configureDecoder (clampQuality quality) ctx
      = (specQualityTable (levelOf quality)).configure ctx) ∧
    (∀ position, seekFlags (clampQuality quality) position
      = (specQualityTable (levelOf quality)).seek_flag position) ∧
    skipTolerance (clampQuality quality) = (specQualityTable (levelOf quality)).skip_tolerance ∧
    matchTolerance (clampQuality quality)
      = (specQualityTable (levelOf quality)).match_tolerance ∧
    swsAlgorithm (clampQuality quality) = (specQualityTable (levelOf quality)).scale_algorithm := by
  obtain ⟨e3, e2, e1, e5⟩ := ofInt_eq_dyadic
  rcases clampQuality_cases quality with ⟨_, h, hl⟩ | ⟨_, h, hl⟩ | ⟨_, _, h, hl⟩
  · rw [h, hl]
    refine ⟨by norm_num [probeLimits, specQualityTable, QUALITY_FAST], rfl, ?_, ?_, ?_, ?_, rfl⟩
    · intro ctx
      simp [configureDecoder, QualityRow.configure, specQualityTable, QUALITY_FAST]
    · intro position; rfl
    · simp only [skipTolerance, QUALITY_FAST, if_true, specQualityTable, e3]
    · simp only [matchTolerance, QUALITY_FAST, if_true, specQualityTable, e2]
  · rw [h, hl]
    refine ⟨by norm_num [probeLimits, specQualityTable, QUALITY_FAST, QUALITY_HQ], rfl,
      ?_, ?_, rfl, rfl, rfl⟩
    · intro ctx
      simp [configureDecoder, QualityRow.configure, specQualityTable, QUALITY_FAST, QUALITY_HQ]
    · intro position; rfl
  · rw [h, hl]
    refine ⟨by norm_num [probeLimits, specQualityTable, QUALITY_FAST, QUALITY_HQ], rfl,
      ?_, ?_, rfl, ?_, rfl⟩
    · intro ctx
      simp [configureDecoder, QualityRow.configure, specQualityTable, QUALITY_FAST, QUALITY_HQ]
    · intro position
      simp only [seekFlags, QUALITY_FAST, QUALITY_HQ, specQualityTable, e5]
      rfl
    · simp only [matchTolerance, QUALITY_FAST, QUALITY_HQ, specQualityTable, e1]
      rfl

/-- A property of calls that holds for the bookkeeping calls of the decode
loop and for the calls of every conversion holds for all calls of the loop. -/
theorem readPackets_forall (P : Event → Prop) (a : DecodeArgs)
    (hread : ∀ ok, P (.av_read_frame ok)) (hsend : ∀ ok, P (.avcodec_send_packet ok))
    (hrecv : ∀ ok, P (.avcodec_receive_frame ok)) (hfu : P .av_frame_unref)
    (hpu : P .av_packet_unref) (hconv : ∀ f, P (.frame_to_bitmap f a.dimension a.quality))
    (hftb : ∀ f, ∀ e ∈ (frame_to_bitmap f a.dimension a.quality).2, P e)
    (ps : List AVPacket) :
    ∀ (q : List AVFrame) (n : Nat), ∀ e ∈ (readPackets a ps q n).events, P e := by
  have hr : ∀ (q : List AVFrame) (n : Nat), ∀ e ∈ (receiveFrames a q n).events, P e := by
    intro q
    induction q with
    | nil =>
      intro n e he
      simp only [receiveFrames, List.mem_singleton] at he
      rw [he]; exact hrecv _
    | cons f rest ih =>
      intro n e he
      unfold receiveFrames at he
      split_ifs at he
      · simp only [List.mem_append, List.mem_cons, List.mem_singleton, List.not_mem_nil,
          or_false] at he
        rcases he with (rfl | rfl) | he
        · exact hrecv _
        · exact hfu
        · exact ih _ e he
      · simp only [List.mem_append, List.mem_cons, List.mem_singleton, List.not_mem_nil,
          or_false] at he
        rcases he with (rfl | rfl) | he
        · exact hrecv _
        · exact hconv _
        · exact hftb f e he
      · simp only [List.mem_append, List.mem_cons, List.mem_singleton, List.not_mem_nil,
          or_false] at he
        rcases he with (rfl | rfl) | he
        · exact hrecv _
        · exact hfu
        · exact ih _ e he
  induction ps with
  | nil =>
    intro q n e he
    simp only [readPackets, List.mem_singleton] at he
    rw [he]; exact hread _
  | cons p ps ih =>
    intro q n e he
    unfold readPackets at he
    by_cases hn : n < MAX_FRAMES
    · simp only [hn, not_true_eq_false, if_false] at he
      by_cases hv : p.stream_index = a.video_stream_idx
      · simp only [hv, if_true] at he
        by_cases hs : p.send_packet = true
        · simp only [hs, if_true] at he
          by_cases hb : (receiveFrames a (q ++ p.frames) n).bitmap.isSome = true
          · simp only [hb, if_true, List.cons_append, List.nil_append, List.append_assoc,
              List.mem_cons, List.mem_append, List.mem_singleton, List.not_mem_nil,
              or_false] at he
            rcases he with rfl | rfl | he | rfl
            · exact hread _
            · exact hsend _
            · exact hr _ _ e he
            · exact hpu
          · simp only [hb, Bool.false_eq_true, if_false, List.cons_append, List.nil_append, List.append_assoc,
              List.mem_cons, List.mem_append, List.mem_singleton, List.not_mem_nil,
              or_false] at he
            rcases he with rfl | rfl | he | rfl | he
            · exact hread _
            · exact hsend _
            · exact hr _ _ e he
            · exact hpu
            · exact ih _ _ e he
        · simp only [hs, Bool.false_eq_true, if_false, List.cons_append, List.nil_append, List.append_assoc,
            List.mem_cons, List.mem_append, List.mem_singleton, List.not_mem_nil,
            or_false] at he
          rcases he with rfl | rfl | rfl | he
          · exact hread _
          · exact hsend _
          · exact hpu
          · exact ih _ _ e he
      · simp only [hv, if_false, List.cons_append, List.nil_append, List.append_assoc,
          List.mem_cons, List.mem_append, List.mem_singleton, List.not_mem_nil,
          or_false] at he
        rcases he with rfl | rfl | he
        · exact hread _
        · exact hpu
        · exact ih _ _ e he
    · simp only [hn, not_false_eq_true, if_true, List.mem_singleton] at he
      rw [he]; exact hread _

theorem frame_to_bitmap_agrees (row : QualityRow) (position : FP) (f : AVFrame) (t q : Int)
    (h : swsAlgorithm q = row.scale_algorithm) :
    ∀ e ∈ (frame_to_bitmap f t q).2, e.agreesWith row position := by
  unfold frame_to_bitmap
  simp only []
  split_ifs <;> simp [Event.agreesWith, h]

theorem configure_attach (quality : Int) (w : World) (use_hw_dec : Bool)
    (ctx : AVCodecContext) :
    (specQualityTable (levelOf quality)).configure
        (attachHardware w use_hw_dec (configureDecoder (clampQuality quality) ctx)).1
      = (attachHardware w use_hw_dec (configureDecoder (clampQuality quality) ctx)).1 := by
  rcases clampQuality_cases quality with ⟨_, h, hl⟩ | ⟨_, h, hl⟩ | ⟨_, _, h, hl⟩ <;>
    rw [h, hl] <;> unfold attachHardware <;> split_ifs <;>
    simp [configureDecoder, QualityRow.configure, specQualityTable, QUALITY_FAST, QUALITY_HQ]

theorem attachHardware_agrees (row : QualityRow) (position : FP) (w : World)
    (use_hw_dec : Bool) (ctx : AVCodecContext) :
    ∀ e ∈ (attachHardware w use_hw_dec ctx).2, e.agreesWith row position := by
  unfold attachHardware
  split_ifs <;> simp [Event.agreesWith]

/-- Every call of a request agrees with the row of the level of its quality. -/
theorem grabThumbnailFast_agrees (w : World) (jpath : String) (position : FP)
    (dimension : Int) (use_hw_dec : Bool) (quality : Int) :
    ∀ e ∈ (grabThumbnailFast w jpath position dimension use_hw_dec quality).events,
      e.agreesWith (specQualityTable (levelOf quality)) position := by
  obtain ⟨hp1, hp2, hconf, hseek, _, _, hsws⟩ := stages_follow_table quality
  have hprobe : Event.agreesWith (specQualityTable (levelOf quality)) position
      (.probe_limits (probeLimits (clampQuality quality))) := ⟨hp1, hp2⟩
  have hloop : ∀ (idx : Int) (tb : AVRational),
      ∀ e ∈ (readPackets ⟨idx, tb, position, dimension, clampQuality quality⟩
        w.packets [] 0).events,
      e.agreesWith (specQualityTable (levelOf quality)) position := by
    intro idx tb
    exact readPackets_forall _ _ (fun _ => trivial) (fun _ => trivial) (fun _ => trivial)
      trivial trivial (fun _ => trivial)
      (fun f => frame_to_bitmap_agrees _ _ f _ _ hsws) _ _ _
  have hdecode : ∀ (ctx : AVCodecContext) (idx : Int) (tb : AVRational),
      ∀ e ∈ (decodeStage w ctx ⟨idx, tb, position, dimension, clampQuality quality⟩).events,
      e.agreesWith (specQualityTable (levelOf quality)) position := by
    intro ctx idx tb
    unfold decodeStage
    split_ifs
    · simp [Event.agreesWith]
    · simp [Event.agreesWith]
    all_goals
      simp only [List.forall_mem_append, List.forall_mem_cons]
      exact ⟨⟨⟨trivial, trivial, by simp⟩, hloop idx tb⟩, trivial, trivial, trivial, trivial,
        by simp⟩
  have hseekStage : ∀ (ctx : AVCodecContext) (idx : Int) (tb : AVRational),
      ∀ e ∈ (seekStage w ctx ⟨idx, tb, position, dimension, clampQuality quality⟩).events,
      e.agreesWith (specQualityTable (levelOf quality)) position := by
    intro ctx idx tb
    unfold seekStage
    split_ifs
    · simp only [Outcome.after, List.forall_mem_append, List.forall_mem_cons]
      exact ⟨⟨(hseek position), trivial, by simp⟩, hdecode ctx idx tb⟩
    · exact hdecode ctx idx tb
  have hdecoder : ∀ (idx : Nat) (stream : AVStream),
      ∀ e ∈ (decoderStage w idx stream position dimension use_hw_dec
        (clampQuality quality)).events,
      e.agreesWith (specQualityTable (levelOf quality)) position := by
    intro idx stream
    have hhw := attachHardware_agrees (specQualityTable (levelOf quality)) position w
      use_hw_dec (configureDecoder (clampQuality quality)
        { w.codec_ctx with hw_device_ctx := false })
    have hcfg := configure_attach quality w use_hw_dec
      { w.codec_ctx with hw_device_ctx := false }
    unfold decoderStage
    simp only []
    split_ifs
    · simp [Event.agreesWith]
    · simp [Event.agreesWith]
    · simp [Event.agreesWith]
    · simp only [List.forall_mem_append, List.forall_mem_cons]
      exact ⟨⟨⟨trivial, trivial, trivial, by simp⟩, hhw⟩, hcfg, trivial, trivial, by simp⟩
    · simp only [Outcome.after, List.forall_mem_append, List.forall_mem_cons]
      exact ⟨⟨⟨⟨trivial, trivial, trivial, by simp⟩, hhw⟩, hcfg, by simp⟩,
        hseekStage _ _ _⟩
  unfold grabThumbnailFast
  split_ifs
  · simp
  · simp
  · simp [Event.agreesWith]
  · simp [Event.agreesWith]
  · simp only [List.forall_mem_cons]
    exact ⟨trivial, trivial, trivial, hprobe, trivial, trivial, by simp⟩
  · cases hf : findVideoStream w.streams 0 with
    | none =>
      simp only [List.forall_mem_cons]
      exact ⟨trivial, trivial, trivial, hprobe, trivial, trivial, by simp⟩
    | some pr =>
      obtain ⟨idx, stream⟩ := pr
      simp only [Outcome.after, List.forall_mem_append, List.forall_mem_cons]
      exact ⟨⟨trivial, trivial, trivial, hprobe, trivial, by simp⟩, hdecoder idx stream⟩

/-- C7: for every integer quality, each stage of the pipeline works with the
row of the quality table that belongs to the same level (`0` FAST, `2` HQ,
every other value NORMAL): the per-stage switches return the literal values of
the row, every call recorded in a request carries them, a request behaves as
the one with the clamped quality, and a quality outside `0..2` is served as
quality `1`, never refused. -/
theorem C7_every_stage_uses_the_quality_row (quality : Int) :
    (((probeLimits (clampQuality quality)).max_analyze_duration : ℚ)
        = (specQualityTable (levelOf quality)).analysis_seconds * 1000000 ∧
      (probeLimits (clampQuality quality)).probesize
        = (specQualityTable (levelOf quality)).probe_bytes ∧
      (∀ ctx, configureDecoder (clampQuality quality) ctx
        = (specQualityTable (levelOf quality)).configure ctx) ∧
      (∀ position, seekFlags (clampQuality quality) position
        = (specQualityTable (levelOf quality)).seek_flag position) ∧
      skipTolerance (clampQuality quality)
        = (specQualityTable (levelOf quality)).skip_tolerance ∧
      matchTolerance (clampQuality quality)
        = (specQualityTable (levelOf quality)).match_tolerance ∧
      swsAlgorithm (clampQuality quality)
        = (specQualityTable (levelOf quality)).scale_algorithm) ∧
    (∀ (w : World) (jpath : String) (position : FP) (dimension : Int) (use_hw_dec : Bool),
      (∀ e ∈ (grabThumbnailFast w jpath position dimension use_hw_dec quality).events,
        e.agreesWith (specQualityTable (levelOf quality)) position) ∧
      grabThumbnailFast w jpath position dimension use_hw_dec quality
        = grabThumbnailFast w jpath position dimension use_hw_dec (clampQuality quality)) ∧
    ((quality < 0 ∨ 2 < quality) →
      levelOf quality = .NORMAL ∧ clampQuality quality = 1 ∧
      ∀ (w : World) (jpath : String) (position : FP) (dimension : Int) (use_hw_dec : Bool),
        grabThumbnailFast w jpath position dimension use_hw_dec quality
          = grabThumbnailFast w jpath position dimension use_hw_dec 1) := by
  have hsame : ∀ (w : World) (jpath : String) (position : FP) (dimension : Int)
      (use_hw_dec : Bool),
      grabThumbnailFast w jpath position dimension use_hw_dec quality
        = grabThumbnailFast w jpath position dimension use_hw_dec (clampQuality quality) := by
    intro w jpath position dimension use_hw_dec
    unfold grabThumbnailFast
    rw [clampQuality_idem]
  refine ⟨stages_follow_table quality, ?_, ?_⟩
  · intro w jpath position dimension use_hw_dec
    exact ⟨grabThumbnailFast_agrees w jpath position dimension use_hw_dec quality,
      hsame w jpath position dimension use_hw_dec⟩
  · intro hq
    rcases clampQuality_cases quality with ⟨h0, _, _⟩ | ⟨h2, _, _⟩ | ⟨_, _, h, hl⟩
    · omega
    · omega
    · refine ⟨hl, h, ?_⟩
      intro w jpath position dimension use_hw_dec
      rw [hsame, h]

set_option maxRecDepth 100000 in
/-- C7 at quality `7`, outside the table: the request is the NORMAL one and
returns its image. -/
theorem C7_quality_row_witness :
    (levelOf 7 = .NORMAL ∧ clampQuality 7 = 1) ∧
    (grabThumbnailFast (sampleWorld samplePackets) "clip.mkv" (binary64.ofInt 10) 256 false 7).bitmap
      = some ⟨frameAt 810000 hostOk, 256, 144, .SWS_POINT⟩ :=
  ⟨⟨((C7_every_stage_uses_the_quality_row 7).2.2 (Or.inr (by decide))).1,
    ((C7_every_stage_uses_the_quality_row 7).2.2 (Or.inr (by decide))).2.1⟩,
   by rw [((C7_every_stage_uses_the_quality_row 7).2.2 (Or.inr (by decide))).2.2]; decide⟩

/-! ## C8: selection of the video stream -/

/-- The search of step 2 returns the least index, counted from `i`, of a
video-typed stream, and nothing exactly when no stream is video-typed. -/
theorem findVideoStream_spec (streams : List AVStream) : ∀ i : Nat,
    (findVideoStream streams i = none ∧ ∀ s ∈ streams, s.codec_type ≠ AVMEDIA_TYPE_VIDEO) ∨
    (∃ k st, findVideoStream streams i = some (i + k, st) ∧ streams[k]? = some st ∧
      st.codec_type = AVMEDIA_TYPE_VIDEO ∧
      ∀ j, j < k → ∀ t, streams[j]? = some t → t.codec_type ≠ AVMEDIA_TYPE_VIDEO) := by
  induction streams with
  | nil => intro i; left; simp [findVideoStream]
  | cons s rest ih =>
    intro i
    unfold findVideoStream
    by_cases hs : s.codec_type = AVMEDIA_TYPE_VIDEO
    · right
      refine ⟨0, s, by simp [hs], by simp, hs, ?_⟩
      intro j hj
      omega
    · simp only [hs, if_false]
      rcases ih (i + 1) with ⟨h1, h2⟩ | ⟨k, st, h1, h2, h3, h4⟩
      · left
        refine ⟨h1, ?_⟩
        intro t ht
        rcases List.mem_cons.1 ht with rfl | ht
        · exact hs
        · exact h2 t ht
      · right
        refine ⟨k + 1, st, ?_, by simpa using h2, h3, ?_⟩
        · rw [h1]; congr 2; omega
        · intro j hj t ht
          cases j with
          | zero =>
            simp at ht
            rw [← ht]; exact hs
          | succ j => exact h4 j (by omega) t (by simpa using ht)

theorem decoderStage_head (w : World) (idx : Nat) (stream : AVStream) (position : FP)
    (dimension : Int) (use_hw_dec : Bool) (quality : Int) :
    ∃ rest, (decoderStage w idx stream position dimension use_hw_dec quality).events
      = .avcodec_find_decoder idx w.find_decoder :: rest := by
  unfold decoderStage
  simp only []
  split_ifs with h1 h2 h3 h4 <;> simp only [Bool.not_eq_true', Bool.not_eq_true,
    Bool.not_eq_false] at h1 <;> rw [h1] <;> exact ⟨_, rfl⟩

theorem decoderStage_creation (w : World) (idx : Nat) (stream : AVStream) (position : FP)
    (dimension : Int) (use_hw_dec : Bool) (quality : Int) :
    (w.find_decoder = false →
      decoderStage w idx stream position dimension use_hw_dec quality
        = ⟨.codec_not_found, none,
           [.avcodec_find_decoder idx false, .avformat_close_input]⟩) ∧
    (w.find_decoder = true → w.alloc_context3 = false →
      decoderStage w idx stream position dimension use_hw_dec quality
        = ⟨.alloc_context_failed, none,
           [.avcodec_find_decoder idx true, .avcodec_alloc_context3 false,
            .avformat_close_input]⟩) ∧
    (w.find_decoder = true → w.alloc_context3 = true →
      Event.avcodec_alloc_context3 true
        ∈ (decoderStage w idx stream position dimension use_hw_dec quality).events) := by
  refine ⟨?_, ?_, ?_⟩
  · intro h1
    unfold decoderStage
    simp [h1]
  · intro h1 h2
    unfold decoderStage
    simp [h1, h2]
  · intro h1 h2
    unfold decoderStage
    simp only [h1, h2, Bool.not_true, Bool.false_eq_true, if_false]
    split_ifs <;> simp [Outcome.after]

/-- C8 (amended): once the container is opened and probed, the stream
`grabThumbnailFast` selects, whose decoder it looks up, is the video-typed
stream of least index; when no stream is video-typed it returns `NULL` through
the "no video stream" exit, with no decoder looked up or created, and that exit
is taken exactly when no stream is video-typed; and it returns `NULL` without
having created a decoder exactly when no stream is video-typed, or the decoder
of the selected stream is not found, or the decoder context cannot be
allocated. -/
theorem C8_first_video_stream_is_selected (w : World) (jpath : String) (position : FP)
    (dimension : Int) (use_hw_dec : Bool) (quality : Int)
    (h : reachesStreamSelection w position dimension) :
    (((grabThumbnailFast w jpath position dimension use_hw_dec quality).bitmap = none ∧
        ∀ e ∈ (grabThumbnailFast w jpath position dimension use_hw_dec quality).events,
          e.createsDecoder = false) ↔
      ((∀ s ∈ w.streams, s.codec_type ≠ AVMEDIA_TYPE_VIDEO) ∨ w.find_decoder = false ∨
        w.alloc_context3 = false)) ∧
    ((∀ s ∈ w.streams, s.codec_type ≠ AVMEDIA_TYPE_VIDEO) →
      grabThumbnailFast w jpath position dimension use_hw_dec quality
        = ⟨.no_video_stream, none,
           [.GetStringUTFChars true, .avformat_open_input true, .ReleaseStringUTFChars,
            .probe_limits (probeLimits (clampQuality quality)),
            .avformat_find_stream_info true, .avformat_close_input]⟩) ∧
    ((grabThumbnailFast w jpath position dimension use_hw_dec quality).exit
        = .no_video_stream ↔
      ∀ s ∈ w.streams, s.codec_type ≠ AVMEDIA_TYPE_VIDEO) ∧
    ((∃ s ∈ w.streams, s.codec_type = AVMEDIA_TYPE_VIDEO) →
      ∃ idx st, findVideoStream w.streams 0 = some (idx, st) ∧ w.streams[idx]? = some st ∧
        st.codec_type = AVMEDIA_TYPE_VIDEO ∧
        (∀ j, j < idx → ∀ t, w.streams[j]? = some t → t.codec_type ≠ AVMEDIA_TYPE_VIDEO) ∧
        Event.avcodec_find_decoder idx w.find_decoder
          ∈ (grabThumbnailFast w jpath position dimension use_hw_dec quality).events) := by
  obtain ⟨hd1, hd2, hpos, hpath, hopen, hinfo⟩ := h
  have hd : ¬ (dimension ≤ 0 ∨ dimension > 4096) := by omega
  rcases findVideoStream_spec w.streams 0 with ⟨hnone, hall⟩ | ⟨k, st, hsome, hk, hv, hmin⟩
  · have hev : grabThumbnailFast w jpath position dimension use_hw_dec quality
        = ⟨.no_video_stream, none,
           [.GetStringUTFChars true, .avformat_open_input true, .ReleaseStringUTFChars,
            .probe_limits (probeLimits (clampQuality quality)),
            .avformat_find_stream_info true, .avformat_close_input]⟩ := by
      unfold grabThumbnailFast
      simp [hd, hpos, hpath, hopen, hinfo, hnone]
    refine ⟨?_, fun _ => hev, ?_, ?_⟩
    · rw [hev]
      exact ⟨fun _ => Or.inl hall, fun _ => ⟨rfl, by simp [Event.createsDecoder]⟩⟩
    · rw [hev]
      exact ⟨fun _ => hall, fun _ => rfl⟩
    · rintro ⟨s, hs, hsv⟩
      exact absurd hsv (hall s hs)
  · rw [Nat.zero_add] at hsome
    have hex : ¬ ∀ s ∈ w.streams, s.codec_type ≠ AVMEDIA_TYPE_VIDEO := by
      intro hc
      exact hc st (List.getElem?_mem hk) hv
    obtain ⟨rest, hrest⟩ := decoderStage_head w k st position dimension use_hw_dec
      (clampQuality quality)
    obtain ⟨hc1, hc2, hc3⟩ := decoderStage_creation w k st position dimension use_hw_dec
      (clampQuality quality)
    have hev : (grabThumbnailFast w jpath position dimension use_hw_dec quality)
        = (decoderStage w k st position dimension use_hw_dec (clampQuality quality)).after
          [.GetStringUTFChars true, .avformat_open_input true, .ReleaseStringUTFChars,
           .probe_limits (probeLimits (clampQuality quality)),
           .avformat_find_stream_info true] := by
      unfold grabThumbnailFast
      simp [hd, hpos, hpath, hopen, hinfo, hsome]
    have hmem : Event.avcodec_find_decoder k w.find_decoder
        ∈ (grabThumbnailFast w jpath position dimension use_hw_dec quality).events := by
      rw [hev]
      simp [Outcome.after, hrest]
    have hexit : (grabThumbnailFast w jpath position dimension use_hw_dec quality).exit
        ≠ .no_video_stream := by
      rw [hev]
      simp only [Outcome.after, decoderStage, seekStage, decodeStage]
      split_ifs <;> simp
    refine ⟨?_, fun hc => absurd hc hex, ⟨fun hc => absurd hc hexit,
      fun hc => absurd hc hex⟩, fun _ => ⟨k, st, hsome, hk, hv, hmin, hmem⟩⟩
    cases hfd : w.find_decoder with
    | false =>
      rw [hev, hc1 hfd]
      exact ⟨fun _ => Or.inr (Or.inl rfl),
        fun _ => ⟨rfl, by simp [Outcome.after, Event.createsDecoder]⟩⟩
    | true =>
      cases hal : w.alloc_context3 with
      | false =>
        rw [hev, hc2 hfd hal]
        exact ⟨fun _ => Or.inr (Or.inr rfl),
          fun _ => ⟨rfl, by simp [Outcome.after, Event.createsDecoder]⟩⟩
      | true =>
        have hin : Event.avcodec_alloc_context3 true
            ∈ (grabThumbnailFast w jpath position dimension use_hw_dec quality).events := by
          rw [hev]
          simp only [Outcome.after]
          exact List.mem_append_right _ (hc3 hfd hal)
        constructor
        · intro hc
          have := hc.2 _ hin
          simp [Event.createsDecoder] at this
        · rintro (hc | hc | hc)
          · exact absurd hc hex
          · exact Bool.noConfusion hc
          · exact Bool.noConfusion hc

/-- C8 (amended) on the sample container, whose stream `0` is audio and
stream `1` video: stream `1` is selected. -/
theorem C8_first_video_stream_witness :
    reachesStreamSelection (sampleWorld []) zero64 256 ∧
    ∃ idx st, findVideoStream (sampleWorld []).streams 0 = some (idx, st) ∧
      (sampleWorld []).streams[idx]? = some st ∧ st.codec_type = AVMEDIA_TYPE_VIDEO ∧
      (∀ j, j < idx → ∀ t, (sampleWorld []).streams[j]? = some t →
        t.codec_type ≠ AVMEDIA_TYPE_VIDEO) ∧
      Event.avcodec_find_decoder idx (sampleWorld []).find_decoder
        ∈ (grabThumbnailFast (sampleWorld []) "clip.mkv" zero64 256 false 1).events :=
  ⟨by decide,
   (C8_first_video_stream_is_selected (sampleWorld []) "clip.mkv" zero64 256 false 1
      (by decide)).2.2.2 ⟨⟨0, ⟨1, 90000⟩⟩, by decide, by decide⟩⟩

set_option maxRecDepth 100000 in
/-- C8 as stated fails: on the sample container with no decoder registered for
its video stream, the request returns `NULL` through the "codec not found"
exit, before `avcodec_alloc_context3`, so no decoder is created although
stream `1` is video-typed. -/
theorem C8_null_without_decoder_despite_video_stream :
    reachesStreamSelection { sampleWorld [] with find_decoder := false } zero64 256 ∧
    (∃ s ∈ ({ sampleWorld [] with find_decoder := false } : World).streams,
      s.codec_type = AVMEDIA_TYPE_VIDEO) ∧
    grabThumbnailFast { sampleWorld [] with find_decoder := false } "clip.mkv" zero64 256
        false 1
      = ⟨.codec_not_found, none,
         [.GetStringUTFChars true, .avformat_open_input true, .ReleaseStringUTFChars,
          .probe_limits ⟨1000000, 5000000⟩, .avformat_find_stream_info true,
          .avcodec_find_decoder 1 false, .avformat_close_input]⟩ ∧
    ∀ e ∈ (grabThumbnailFast { sampleWorld [] with find_decoder := false } "clip.mkv" zero64
        256 false 1).events, e.createsDecoder = false := by
  decide

/-! ## C9: every resource is released exactly once -/

theorem ledger_append (xs ys : List Event) : ∀ held : List Resource,
    ledger (xs ++ ys) held = (ledger xs held).bind (fun rest => ledger ys rest) := by
  induction xs with
  | nil => intro held; rfl
  | cons e es ih =>
    intro held
    simp only [List.cons_append, ledger]
    cases releaseAll e.releases held with
    | none => rfl
    | some rest => exact ih _

theorem ledger_append_of_eq (xs ys : List Event) (held mid : List Resource)
    (h : ledger xs held = some mid) : ledger (xs ++ ys) held = ledger ys mid := by
  rw [ledger_append, h]; rfl

/-- A conversion gives back all it takes, on each of its return paths. -/
theorem frame_to_bitmap_ledger (frame : AVFrame) (t q : Int) (held : List Resource) :
    ledger (frame_to_bitmap frame t q).2 held = some held := by
  unfold frame_to_bitmap
  simp only []
  split_ifs <;>
    simp [ledger, releaseAll, Event.releases, Event.acquires, List.erase_cons]

theorem receiveFrames_ledger (a : DecodeArgs) (q : List AVFrame) :
    ∀ (n : Nat) (held : List Resource), ledger (receiveFrames a q n).events held = some held := by
  induction q with
  | nil => intro n held; simp [receiveFrames, ledger, releaseAll, Event.releases, Event.acquires]
  | cons f rest ih =>
    intro n held
    unfold receiveFrames
    split_ifs
    · simp only [List.cons_append, List.nil_append, ledger, releaseAll, Event.releases,
        Event.acquires]
      exact ih _ _
    · simp only [List.cons_append, List.nil_append, ledger, releaseAll, Event.releases,
        Event.acquires]
      exact frame_to_bitmap_ledger _ _ _ _
    · simp only [List.cons_append, List.nil_append, ledger, releaseAll, Event.releases,
        Event.acquires]
      exact ih _ _

theorem readPackets_ledger (a : DecodeArgs) (ps : List AVPacket) :
    ∀ (q : List AVFrame) (n : Nat) (held : List Resource),
      ledger (readPackets a ps q n).events held = some held := by
  induction ps with
  | nil => intro q n held; simp [readPackets, ledger, releaseAll, Event.releases, Event.acquires]
  | cons p ps ih =>
    intro q n held
    have hunref : ∀ tail : List Event, ∀ h : List Resource,
        ledger (Event.av_packet_unref :: tail) h = ledger tail h := by
      intro tail h
      simp [ledger, releaseAll, Event.releases, Event.acquires]
    unfold readPackets
    by_cases hn : n < MAX_FRAMES
    · simp only [hn, not_true_eq_false, if_false]
      by_cases hv : p.stream_index = a.video_stream_idx
      · simp only [hv, if_true]
        by_cases hs : p.send_packet = true
        · simp only [hs, if_true]
          have hr := receiveFrames_ledger a (q ++ p.frames) n held
          by_cases hb : (receiveFrames a (q ++ p.frames) n).bitmap.isSome = true
          · simp only [hb, if_true, List.cons_append, List.nil_append, ledger, releaseAll,
              Event.releases, Event.acquires]
            rw [ledger_append_of_eq _ _ _ _ hr, hunref]
            rfl
          · simp only [hb, Bool.false_eq_true, if_false, List.cons_append, List.nil_append,
              List.append_assoc, ledger, releaseAll, Event.releases, Event.acquires]
            rw [ledger_append_of_eq _ _ _ _ hr, hunref]
            exact ih _ _ _
        · simp only [hs, Bool.false_eq_true, if_false, List.cons_append, List.nil_append,
            ledger, releaseAll, Event.releases, Event.acquires]
          exact ih _ _ _
      · simp only [hv, if_false, List.cons_append, List.nil_append, ledger, releaseAll,
          Event.releases, Event.acquires]
        exact ih _ _ _
    · simp [hn, ledger, releaseAll, Event.releases, Event.acquires]

theorem decodeStage_ledger (w : World) (ctx : AVCodecContext) (a : DecodeArgs) :
    ledger (decodeStage w ctx a).events (heldWith ctx) = some [] := by
  have hloop := readPackets_ledger a w.packets [] 0
  have htail : ledger [Event.av_frame_free, Event.av_packet_free,
      Event.avcodec_free_context ctx, Event.avformat_close_input]
      (Resource.frame :: Resource.packet :: heldWith ctx) = some [] := by
    unfold heldWith
    cases hc : ctx.hw_device_ctx <;>
      simp [ledger, releaseAll, Event.releases, Event.acquires, List.erase_cons, hc]
  have hfree : ledger [Event.avcodec_free_context ctx, Event.avformat_close_input]
      (heldWith ctx) = some [] := by
    unfold heldWith
    cases hc : ctx.hw_device_ctx <;>
      simp [ledger, releaseAll, Event.releases, Event.acquires, List.erase_cons, hc]
  unfold decodeStage
  by_cases hp : w.packet_alloc = true
  · by_cases hf : w.frame_alloc = true
    · simp only [hp, hf, Bool.not_true, Bool.false_eq_true, if_false, List.cons_append,
        List.nil_append, List.append_assoc, ledger, releaseAll, Event.releases,
        Event.acquires]
      rw [ledger_append_of_eq _ _ _ _ (hloop _)]
      exact htail
    · simp only [hp, hf, Bool.not_true, Bool.not_false, Bool.false_eq_true, if_false,
        if_true, List.cons_append, List.nil_append, ledger, releaseAll, Event.releases,
        Event.acquires, List.mem_cons, true_or, List.erase_cons_head]
      exact hfree
  · simp only [hp, Bool.not_false, if_true, List.cons_append, List.nil_append, ledger,
      releaseAll, Event.releases, Event.acquires]
    exact hfree

theorem seekStage_ledger (w : World) (ctx : AVCodecContext) (a : DecodeArgs) :
    ledger (seekStage w ctx a).events (heldWith ctx) = some [] := by
  unfold seekStage
  split_ifs
  · simp only [Outcome.after, List.cons_append, List.nil_append, ledger, releaseAll,
      Event.releases, Event.acquires]
    exact decodeStage_ledger w ctx a
  · exact decodeStage_ledger w ctx a

theorem attachHardware_ledger (w : World) (use_hw_dec : Bool) (ctx : AVCodecContext)
    (h : ctx.hw_device_ctx = false) :
    ledger (attachHardware w use_hw_dec ctx).2 [.codec_ctx, .format_ctx]
      = some (heldWith (attachHardware w use_hw_dec ctx).1) := by
  unfold attachHardware heldWith
  cases use_hw_dec <;> cases h1 : w.hwdevice_type <;> cases h2 : w.hwdevice_ctx_create <;>
    cases h3 : w.buffer_ref <;>
    simp [h, ledger, releaseAll, Event.releases, Event.acquires, List.erase_cons]

theorem decoderStage_ledger (w : World) (idx : Nat) (stream : AVStream) (position : FP)
    (dimension : Int) (use_hw_dec : Bool) (quality : Int) :
    ledger (decoderStage w idx stream position dimension use_hw_dec quality).events
      [.format_ctx] = some [] := by
  have hcfg : (configureDecoder quality
      { w.codec_ctx with hw_device_ctx := false }).hw_device_ctx = false := by
    unfold configureDecoder
    split_ifs <;> rfl
  have hhw := attachHardware_ledger w use_hw_dec _ hcfg
  unfold decoderStage
  simp only []
  by_cases h1 : w.find_decoder = true
  · by_cases h2 : w.alloc_context3 = true
    · by_cases h3 : w.parameters_to_context = true
      · by_cases h4 : w.open2 = true
        · simp only [h1, h2, h3, h4, Bool.not_true, Bool.false_eq_true, if_false,
            Outcome.after, List.cons_append, List.nil_append, List.append_assoc, ledger,
            releaseAll, Event.releases, Event.acquires]
          rw [ledger_append_of_eq _ _ _ _ hhw]
          simp only [ledger, releaseAll, Event.releases, Event.acquires, List.nil_append]
          exact seekStage_ledger _ _ _
        · simp only [h1, h2, h3, h4, Bool.not_true, Bool.not_false, Bool.false_eq_true,
            if_false, if_true, List.cons_append, List.nil_append, List.append_assoc, ledger,
            releaseAll, Event.releases, Event.acquires]
          rw [ledger_append_of_eq _ _ _ _ hhw]
          unfold heldWith
          cases hc : (attachHardware w use_hw_dec (configureDecoder quality
              { w.codec_ctx with hw_device_ctx := false })).1.hw_device_ctx <;>
            simp [ledger, releaseAll, Event.releases, Event.acquires, List.erase_cons, hc]
      · simp [h1, h2, h3, ledger, releaseAll, Event.releases, Event.acquires, List.erase_cons]
    · simp [h1, h2, ledger, releaseAll, Event.releases, Event.acquires, List.erase_cons]
  · simp [h1, ledger, releaseAll, Event.releases, Event.acquires, List.erase_cons]

/-- C9: on every exit path of `grabThumbnailFast` the calls made give back
each resource taken (path string, container, decoder context with its
hardware device reference, packet, frame) exactly once, nothing being given
back that is not held and nothing being held at the return; and a conversion
by `frame_to_bitmap` gives back its scaling context, its array reference, the
array elements and the configuration reference on each of its return paths,
leaving what was held before unchanged. -/
theorem C9_resources_released_exactly_once (w : World) (jpath : String) (position : FP)
    (dimension : Int) (use_hw_dec : Bool) (quality : Int) :
    ledger (grabThumbnailFast w jpath position dimension use_hw_dec quality).events []
      = some [] ∧
    ∀ (frame : AVFrame) (target_dimension q : Int) (held : List Resource),
      ledger (frame_to_bitmap frame target_dimension q).2 held = some held := by
  refine ⟨?_, fun frame t q held => frame_to_bitmap_ledger frame t q held⟩
  unfold grabThumbnailFast
  split_ifs
  · rfl
  · rfl
  · simp [ledger, releaseAll, Event.releases, Event.acquires]
  · simp [ledger, releaseAll, Event.releases, Event.acquires]
  · simp [ledger, releaseAll, Event.releases, Event.acquires]
  · cases hf : findVideoStream w.streams 0 with
    | none => simp [ledger, releaseAll, Event.releases, Event.acquires]
    | some pr =>
      obtain ⟨idx, stream⟩ := pr
      simp only [Outcome.after, List.cons_append, List.nil_append, ledger, releaseAll,
        Event.releases, Event.acquires, List.mem_cons, true_or, if_true, List.erase_cons_head]
      exact decoderStage_ledger _ _ _ _ _ _ _

/-! ## C10: seek and flush -/

/-- The calls of a request that reaches step 4: the opening calls, then the
seek stage on the selected stream. -/
theorem grabThumbnailFast_reaches (w : World) (jpath : String) (position : FP)
    (dimension : Int) (use_hw_dec : Bool) (quality : Int)
    (h : reachesSeek w position dimension) :
    ∃ idx st, findVideoStream w.streams 0 = some (idx, st) ∧
      grabThumbnailFast w jpath position dimension use_hw_dec quality
        = (seekStage w
            (attachHardware w use_hw_dec (configureDecoder (clampQuality quality)
              { w.codec_ctx with hw_device_ctx := false })).1
            ⟨idx, st.time_base, position, dimension, clampQuality quality⟩).after
          ([.GetStringUTFChars true, .avformat_open_input true, .ReleaseStringUTFChars,
            .probe_limits (probeLimits (clampQuality quality)),
            .avformat_find_stream_info true, .avcodec_find_decoder idx true,
            .avcodec_alloc_context3 true, .avcodec_parameters_to_context true]
            ++ (attachHardware w use_hw_dec (configureDecoder (clampQuality quality)
              { w.codec_ctx with hw_device_ctx := false })).2
            ++ [.avcodec_open2
              (attachHardware w use_hw_dec (configureDecoder (clampQuality quality)
                { w.codec_ctx with hw_device_ctx := false })).1 true]) := by
  obtain ⟨⟨hd1, hd2, hpos, hpath, hopen, hinfo⟩, ⟨s, hs, hsv⟩, h1, h2, h3, h4⟩ := h
  have hd : ¬ (dimension ≤ 0 ∨ dimension > 4096) := by omega
  rcases findVideoStream_spec w.streams 0 with ⟨_, hall⟩ | ⟨k, st, hsome, _, _, _⟩
  · exact absurd hsv (hall s hs)
  · rw [Nat.zero_add] at hsome
    refine ⟨k, st, hsome, ?_⟩
    unfold grabThumbnailFast
    simp [hd, hpos, hpath, hopen, hinfo, hsome, decoderStage, h1, h2, h3, h4, Outcome.after]

theorem attachHardware_quiet (w : World) (use_hw_dec : Bool) (ctx : AVCodecContext) :
    ∀ e ∈ (attachHardware w use_hw_dec ctx).2,
      e.isSeek = false ∧ e.isFlush = false ∧ e.isRead = false := by
  unfold attachHardware
  split_ifs <;> simp [Event.isSeek, Event.isFlush, Event.isRead]

theorem decodeStage_quiet (w : World) (ctx : AVCodecContext) (a : DecodeArgs) :
    ∀ e ∈ (decodeStage w ctx a).events, e.isSeek = false ∧ e.isFlush = false := by
  have hloop : ∀ e ∈ (readPackets a w.packets [] 0).events,
      e.isSeek = false ∧ e.isFlush = false := by
    refine readPackets_forall (fun e => e.isSeek = false ∧ e.isFlush = false) a
      (fun _ => ⟨rfl, rfl⟩) (fun _ => ⟨rfl, rfl⟩) (fun _ => ⟨rfl, rfl⟩) ⟨rfl, rfl⟩ ⟨rfl, rfl⟩
      (fun _ => ⟨rfl, rfl⟩) ?_ _ _ _
    intro f
    unfold frame_to_bitmap
    simp only []
    split_ifs <;> simp [Event.isSeek, Event.isFlush]
  unfold decodeStage
  split_ifs
  · simp [Event.isSeek, Event.isFlush]
  · simp [Event.isSeek, Event.isFlush]
  all_goals
    simp only [List.forall_mem_append, List.forall_mem_cons]
    exact ⟨⟨⟨⟨rfl, rfl⟩, ⟨rfl, rfl⟩, by simp⟩, hloop⟩, ⟨rfl, rfl⟩, ⟨rfl, rfl⟩, ⟨rfl, rfl⟩,
      ⟨rfl, rfl⟩, by simp⟩

theorem decodeStage_seek_frame (w : World) (b : Bool) (ctx : AVCodecContext)
    (a : DecodeArgs) : decodeStage { w with seek_frame := b } ctx a = decodeStage w ctx a := by
  rfl

theorem attachHardware_seek_frame (w : World) (b : Bool) (use_hw_dec : Bool)
    (ctx : AVCodecContext) :
    attachHardware { w with seek_frame := b } use_hw_dec ctx = attachHardware w use_hw_dec ctx := by
  rfl

set_option maxRecDepth 10000 in
theorem seekGuard_zero (position : FP) (h : FP.eq position zero64 = true) :
    seekGuard position = false := by
  have hz : zero64 = .fin 0 := by decide
  unfold seekGuard
  rw [hz] at h ⊢
  cases position <;> simp_all [FP.eq, FP.lt]

/-- C10 (amended): in a request that reaches step 4, if
`0 < position < INT64_MAX / AV_TIME_BASE` exactly one `av_seek_frame` is
issued, on the selected stream, immediately followed by the one
`avcodec_flush_buffers`, both before any `av_read_frame`, and exit and image
of the request are the same whether the seek succeeds or fails; for every
other position, `position == 0` among them, the request neither seeks nor
flushes. -/
theorem C10_seek_and_flush_within_guard (w : World) (jpath : String) (position : FP)
    (dimension : Int) (use_hw_dec : Bool) (quality : Int)
    (h : reachesSeek w position dimension) :
    (seekGuard position = true →
      ∃ pre post idx st, findVideoStream w.streams 0 = some (idx, st) ∧
        (grabThumbnailFast w jpath position dimension use_hw_dec quality).events
          = pre ++ [.av_seek_frame idx (seekTarget position st.time_base)
                      (seekFlags (clampQuality quality) position) w.seek_frame,
                    .avcodec_flush_buffers] ++ post ∧
        (∀ e ∈ pre, e.isSeek = false ∧ e.isFlush = false ∧ e.isRead = false) ∧
        (∀ e ∈ post, e.isSeek = false ∧ e.isFlush = false)) ∧
    (seekGuard position = false →
      ∀ e ∈ (grabThumbnailFast w jpath position dimension use_hw_dec quality).events,
        e.isSeek = false ∧ e.isFlush = false) ∧
    (FP.eq position zero64 = true → seekGuard position = false) ∧
    (∀ b : Bool,
      (grabThumbnailFast { w with seek_frame := b } jpath position dimension use_hw_dec
          quality).exit
        = (grabThumbnailFast w jpath position dimension use_hw_dec quality).exit ∧
      (grabThumbnailFast { w with seek_frame := b } jpath position dimension use_hw_dec
          quality).bitmap
        = (grabThumbnailFast w jpath position dimension use_hw_dec quality).bitmap) := by
  obtain ⟨idx, st, hfind, hev⟩ :=
    grabThumbnailFast_reaches w jpath position dimension use_hw_dec quality h
  have hpre : ∀ e ∈ ([.GetStringUTFChars true, .avformat_open_input true,
      .ReleaseStringUTFChars, .probe_limits (probeLimits (clampQuality quality)),
      .avformat_find_stream_info true, .avcodec_find_decoder idx true,
      .avcodec_alloc_context3 true, .avcodec_parameters_to_context true]
      ++ (attachHardware w use_hw_dec (configureDecoder (clampQuality quality)
        { w.codec_ctx with hw_device_ctx := false })).2
      ++ [.avcodec_open2
        (attachHardware w use_hw_dec (configureDecoder (clampQuality quality)
          { w.codec_ctx with hw_device_ctx := false })).1 true] : List Event),
      e.isSeek = false ∧ e.isFlush = false ∧ e.isRead = false := by
    simp only [List.forall_mem_append, List.forall_mem_cons]
    exact ⟨⟨⟨⟨rfl, rfl, rfl⟩, ⟨rfl, rfl, rfl⟩, ⟨rfl, rfl, rfl⟩, ⟨rfl, rfl, rfl⟩,
      ⟨rfl, rfl, rfl⟩, ⟨rfl, rfl, rfl⟩, ⟨rfl, rfl, rfl⟩, ⟨rfl, rfl, rfl⟩, by simp⟩,
      attachHardware_quiet _ _ _⟩, ⟨rfl, rfl, rfl⟩, by simp⟩
  refine ⟨?_, ?_, seekGuard_zero position, ?_⟩
  · intro hg
    refine ⟨_, (decodeStage w (attachHardware w use_hw_dec (configureDecoder
        (clampQuality quality) { w.codec_ctx with hw_device_ctx := false })).1
        ⟨idx, st.time_base, position, dimension, clampQuality quality⟩).events,
      idx, st, hfind, ?_, hpre, decodeStage_quiet w _ _⟩
    rw [hev]
    simp only [Outcome.after, seekStage, hg, if_true, List.append_assoc]
  · intro hg e he
    rw [hev] at he
    simp only [Outcome.after, seekStage, hg, Bool.false_eq_true, if_false] at he
    rcases List.mem_append.1 he with he | he
    · exact ⟨(hpre e he).1, (hpre e he).2.1⟩
    · exact decodeStage_quiet w _ _ e he
  · intro b
    have hb : reachesSeek { w with seek_frame := b } position dimension := h
    obtain ⟨idx', st', hfind', hev'⟩ :=
      grabThumbnailFast_reaches { w with seek_frame := b } jpath position dimension
        use_hw_dec quality hb
    have hsame : (idx', st') = (idx, st) := by
      have : some (idx', st') = some (idx, st) := by rw [← hfind', ← hfind]
      exact Option.some.inj this
    obtain ⟨rfl, rfl⟩ := Prod.mk.inj hsame
    rw [hev, hev']
    simp only [Outcome.after, seekStage, attachHardware_seek_frame, decodeStage_seek_frame]
    split_ifs <;> exact ⟨rfl, rfl⟩

set_option maxRecDepth 100000 in
/-- C10 (amended) on the sample request at position `10.0`: the request
reaches step 4, the guard holds, and the seek on stream `1` to timestamp
`900000` with the flush is in the recorded calls. -/
theorem C10_seek_and_flush_witness :
    reachesSeek (sampleWorld samplePackets) (binary64.ofInt 10) 256 ∧
    seekGuard (binary64.ofInt 10) = true ∧
    ∃ pre post idx st, findVideoStream (sampleWorld samplePackets).streams 0 = some (idx, st) ∧
      (grabThumbnailFast (sampleWorld samplePackets) "clip.mkv" (binary64.ofInt 10) 256
          false 1).events
        = pre ++ [.av_seek_frame idx (seekTarget (binary64.ofInt 10) st.time_base)
                    (seekFlags (clampQuality 1) (binary64.ofInt 10))
                    (sampleWorld samplePackets).seek_frame,
                  .avcodec_flush_buffers] ++ post ∧
      (∀ e ∈ pre, e.isSeek = false ∧ e.isFlush = false ∧ e.isRead = false) ∧
      (∀ e ∈ post, e.isSeek = false ∧ e.isFlush = false) :=
  ⟨by decide, by decide,
   (C10_seek_and_flush_within_guard (sampleWorld samplePackets) "clip.mkv"
      (binary64.ofInt 10) 256 false 1 (by decide)).1 (by decide)⟩

set_option maxRecDepth 100000 in
/-- C10 as stated fails: position `9223372036854.0` is a valid position above
zero, the request reaches step 4, and yet no seek and no flush is issued,
because the guard `position < INT64_MAX / AV_TIME_BASE` is false. -/
theorem C10_no_seek_at_large_position :
    reachesSeek (sampleWorld samplePackets) (binary64.ofInt 9223372036854) 256 ∧
    FP.lt zero64 (binary64.ofInt 9223372036854) = true ∧
    ∀ e ∈ (grabThumbnailFast (sampleWorld samplePackets) "clip.mkv"
        (binary64.ofInt 9223372036854) 256 false 1).events,
      e.isSeek = false ∧ e.isFlush = false := by
  decide

/-! ## C11: the square crop of `grabThumbnail` -/

/-- C11: for a screenshot of `w` by `h` pixels, both positive `int`s, the crop
of `grabThumbnail` is a centred square: its width and height are `min w h`,
the window `[crop_left, crop_left + new_w) x [crop_top, crop_top + new_h)`
lies inside the source, the offset on the shorter axis is zero, and on each
axis the margin after the window exceeds the margin before it by at most
one. -/
theorem C11_crop_is_centred_square (w h : Int) (hw : 0 < w) (hw' : w < 2147483648)
    (hh : 0 < h) (hh' : h < 2147483648) :
    (cropToSquare w h).new_w = min w h ∧ (cropToSquare w h).new_h = min w h ∧
    0 ≤ (cropToSquare w h).crop_left ∧
    (cropToSquare w h).crop_left + (cropToSquare w h).new_w ≤ w ∧
    0 ≤ (cropToSquare w h).crop_top ∧
    (cropToSquare w h).crop_top + (cropToSquare w h).new_h ≤ h ∧
    (w ≤ h → (cropToSquare w h).crop_left = 0) ∧
    (h ≤ w → (cropToSquare w h).crop_top = 0) ∧
    (cropToSquare w h).crop_left
      ≤ w - ((cropToSquare w h).crop_left + (cropToSquare w h).new_w) ∧
    w - ((cropToSquare w h).crop_left + (cropToSquare w h).new_w)
      ≤ (cropToSquare w h).crop_left + 1 ∧
    (cropToSquare w h).crop_top
      ≤ h - ((cropToSquare w h).crop_top + (cropToSquare w h).new_h) ∧
    h - ((cropToSquare w h).crop_top + (cropToSquare w h).new_h)
      ≤ (cropToSquare w h).crop_top + 1 := by
  unfold cropToSquare
  by_cases hwh : w > h
  · have h1 : wrap32 (w - h) = w - h := by unfold wrap32; omega
    have h2 : Int.tdiv (w - h) 2 = (w - h) / 2 :=
      Int.tdiv_eq_ediv (by omega) (by decide)
    simp only [hwh, if_true, h1, h2]
    have hmin : min w h = h := min_eq_right (by omega)
    rw [hmin]
    refine ⟨rfl, rfl, ?_, ?_, ?_, ?_, ?_, ?_, ?_, ?_, ?_, ?_⟩
    all_goals first | omega | (intro _; trivial)
  · have h1 : wrap32 (h - w) = h - w := by unfold wrap32; omega
    have h2 : Int.tdiv (h - w) 2 = (h - w) / 2 :=
      Int.tdiv_eq_ediv (by omega) (by decide)
    simp only [hwh, if_false, h1, h2]
    have hmin : min w h = w := min_eq_left (by omega)
    rw [hmin]
    refine ⟨rfl, rfl, ?_, ?_, ?_, ?_, ?_, ?_, ?_, ?_, ?_, ?_⟩
    all_goals first | omega | (intro _; trivial)

/-- C11 at a 1920 by 1080 screenshot (window 420..1500 across, all rows) and
at a 1080 by 1921 one (odd difference: margins 420 and 421). -/
theorem C11_crop_witness :
    cropToSquare 1920 1080 = ⟨420, 0, 1080, 1080⟩ ∧
    ((cropToSquare 1080 1921).new_w = min 1080 1921 ∧
      (cropToSquare 1080 1921).crop_top = 420 ∧
      1921 - ((cropToSquare 1080 1921).crop_top + (cropToSquare 1080 1921).new_h)
        ≤ (cropToSquare 1080 1921).crop_top + 1) :=
  ⟨by decide,
   (C11_crop_is_centred_square 1080 1921 (by decide) (by decide) (by decide) (by decide)).1,
   by decide,
   (C11_crop_is_centred_square 1080 1921 (by decide) (by decide) (by decide)
     (by decide)).2.2.2.2.2.2.2.2.2.2.2⟩

/-! ## C12: the two-step test against the single test -/

/-- Two data that are not NaN are comparable. -/
theorem lt_or_ge_of_ne_nan (t x : FP) (ht : t ≠ .nan) (hx : x ≠ .nan) :
    FP.lt t x = true ∨ FP.ge t x = true := by
  cases t <;> cases x <;> simp_all [FP.lt, FP.ge, FP.eq]
  omega

/-- C12: for every quality, position and frame time, the two-step test of the
receive loop accepts a frame exactly when the single test
`position == 0 || frame_time >= position - match_tolerance` holds, because
`match_tolerance <= skip_tolerance` at every level; the receive loop itself
obeys the recursion of the single test, so the skip branch never changes which
frame is selected; and at HQ both tolerances are `0.5`, so no frame time lies
in the band from `position - skip_tolerance` up to
`position - match_tolerance`. -/
theorem C12_two_step_test_is_single_test (quality : Int) (position frame_time : FP) :
    (frameVerdict quality position frame_time = .accept ↔
      matchTest quality position frame_time = true) ∧
    (frameVerdict quality position frame_time = .skip →
      matchTest quality position frame_time = false) ∧
    (∃ s m : Int, skipTolerance quality = .fin s ∧ matchTolerance quality = .fin m ∧ m ≤ s) ∧
    (∀ (a : DecodeArgs) (frame : AVFrame) (rest : List AVFrame) (n : Nat),
      receiveFrames a (frame :: rest) n =
        if matchTest a.quality a.position (frameTime a.time_base frame) then
          ⟨(frame_to_bitmap frame a.dimension a.quality).1, rest, n + 1,
           [.avcodec_receive_frame true, .frame_to_bitmap frame a.dimension a.quality]
             ++ (frame_to_bitmap frame a.dimension a.quality).2⟩
        else
          { receiveFrames a rest (n + 1) with
            events := [.avcodec_receive_frame true, .av_frame_unref]
              ++ (receiveFrames a rest (n + 1)).events }) ∧
    (skipTolerance QUALITY_HQ = matchTolerance QUALITY_HQ ∧
      ¬ (FP.ge frame_time (binary64.sub position (skipTolerance QUALITY_HQ)) = true ∧
        FP.lt frame_time (binary64.sub position (matchTolerance QUALITY_HQ)) = true) ∧
      (FP.lt zero64 position = true → frame_time ≠ .nan →
        frameVerdict QUALITY_HQ position frame_time ≠ .discard)) := by
  refine ⟨?_, ?_, tolerance_values quality, ?_, rfl, ?_, ?_⟩
  · unfold frameVerdict
    by_cases hk : skipTest quality position frame_time = true
    · have := skip_not_match _ _ _ hk
      simp [hk, this]
    · by_cases hm : matchTest quality position frame_time = true
      · simp [hk, hm]
      · simp [hk, hm]
  · unfold frameVerdict
    intro h
    by_cases hk : skipTest quality position frame_time = true
    · exact skip_not_match _ _ _ hk
    · by_cases hm : matchTest quality position frame_time = true
      · simp [hk, hm] at h
      · simp [hk, hm] at h
  · intro a frame rest n
    by_cases hk : skipTest a.quality a.position (frameTime a.time_base frame) = true
    · have hm := skip_not_match _ _ _ hk
      rw [receiveFrames]
      simp only [hk, if_true, hm, Bool.false_eq_true, if_false]
    · by_cases hm : matchTest a.quality a.position (frameTime a.time_base frame) = true
      · rw [receiveFrames]
        simp only [hk, hm, if_true, Bool.false_eq_true, if_false]
      · rw [receiveFrames]
        simp only [hk, hm, Bool.false_eq_true, if_false]
  · rintro ⟨h1, h2⟩
    have h3 : skipTolerance QUALITY_HQ = matchTolerance QUALITY_HQ := rfl
    rw [h3] at h1
    rw [FP.not_ge_of_lt h2] at h1
    exact Bool.false_ne_true h1
  · intro hpos hnan
    have hz : zero64 = .fin 0 := by decide
    obtain ⟨s, m, hs, hm, _⟩ := tolerance_values QUALITY_HQ
    have hsm : skipTolerance QUALITY_HQ = matchTolerance QUALITY_HQ := rfl
    have hne : binary64.sub position (matchTolerance QUALITY_HQ) ≠ .nan := by
      rw [hm]
      rw [hz] at hpos
      cases position with
      | fin k => exact round_ne_nan _ _ _ _
      | pinf => simp [FloatFormat.sub]
      | ninf => simp [FP.lt] at hpos
      | nan => simp [FP.lt] at hpos
    unfold frameVerdict skipTest matchTest
    rw [hsm]
    rcases lt_or_ge_of_ne_nan frame_time _ hnan hne with hlt | hge
    · simp [hpos, hlt]
    · have hnl : FP.lt frame_time (binary64.sub position (matchTolerance QUALITY_HQ))
          = false := by
        cases hl : FP.lt frame_time (binary64.sub position (matchTolerance QUALITY_HQ)) with
        | false => rfl
        | true => rw [FP.not_ge_of_lt hl] at hge; exact absurd hge Bool.false_ne_true
      simp [hpos, hnl, hge]

/-! ## C13: the seek target -/

theorem rne_mul_right (m D d : Nat) (hd : 0 < d) : rne (m * d) (D * d) = rne m D := by
  have e1 : 2 * (m % D * d) < D * d ↔ 2 * (m % D) < D := by
    rw [← Nat.mul_assoc]; exact Nat.mul_lt_mul_right hd
  have e2 : D * d < 2 * (m % D * d) ↔ D < 2 * (m % D) := by
    rw [← Nat.mul_assoc]; exact Nat.mul_lt_mul_right hd
  unfold rne
  rw [Nat.mul_mod_mul_right, Nat.mul_div_mul_right _ _ hd]
  simp only [e1, e2]

/-- A quantity that is a whole number of units rounds as that number does. -/
theorem roundMag_mul_right (p m d : Nat) (hd : 0 < d) :
    roundMag p (m * d) d = roundMag p m 1 := by
  unfold roundMag
  rw [Nat.mul_div_cancel m hd, Nat.div_one, Nat.one_mul, Nat.mul_comm d, rne_mul_right _ _ _ hd]

set_option maxRecDepth 100000 in
theorem roundMag_guard_bound :
    roundMag 53 (9223372036854 * 2 ^ 1074 * 1000000) 1 = 9223372036853999616 * 2 ^ 1074 := by
  decide

set_option maxRecDepth 100000 in
theorem guard_constants :
    zero64 = .fin 0 ∧
    binary64.ofInt (Int.tdiv INT64_MAX AV_TIME_BASE)
      = .fin ((9223372036854 * 2 ^ 1074 : Nat) : Int) ∧
    binary64.ofInt AV_TIME_BASE = .fin ((1000000 * 2 ^ 1074 : Nat) : Int) := by
  decide

/-- Inside the seek guard the double product `position * AV_TIME_BASE` is a
finite value below `2^63`, so `timestamp` is in range. -/
theorem seekMicros_bounds (position : FP) (hg : seekGuard position = true) :
    0 ≤ seekMicros position ∧ seekMicros position ≤ 9223372036853999616 := by
  obtain ⟨hz, hL, hc⟩ := guard_constants
  unfold seekGuard at hg
  rw [hz, hL] at hg
  unfold seekMicros
  rw [hc]
  cases position with
  | pinf => simp [FP.lt] at hg
  | ninf => simp [FP.lt] at hg
  | nan => simp [FP.lt] at hg
  | fin k =>
    simp only [FP.lt, Bool.and_eq_true, decide_eq_true_eq] at hg
    obtain ⟨hk0, hkL⟩ := hg
    obtain ⟨j, rfl⟩ := Int.eq_ofNat_of_zero_le (le_of_lt hk0)
    have hjL : j < 9223372036854 * 2 ^ 1074 := Int.ofNat_lt.1 hkL
    have hn : (j : Int).natAbs * ((1000000 * 2 ^ 1074 : Nat) : Int).natAbs
        = j * 1000000 * 2 ^ 1074 := by
      simp only [Int.natAbs_ofNat]; ring
    have hmono : roundMag 53 (j * 1000000) 1
        ≤ roundMag 53 (9223372036854 * 2 ^ 1074 * 1000000) 1 :=
      roundMag_one_mono 53 (by decide) (Nat.mul_le_mul_right _ (le_of_lt hjL))
    rw [roundMag_guard_bound] at hmono
    have hr : roundMag binary64.prec
        ((j : Int).natAbs * ((1000000 * 2 ^ 1074 : Nat) : Int).natAbs) (2 ^ binary64.ulp)
        = roundMag 53 (j * 1000000) 1 := by
      rw [hn]
      exact roundMag_mul_right 53 (j * 1000000) (2 ^ 1074) (Nat.two_pow_pos _)
    have hlt : ¬ (2 ^ (binary64.emax + binary64.ulp) ≤ roundMag 53 (j * 1000000) 1) := by
      have h1 : 9223372036853999616 * 2 ^ 1074 < 2 ^ (binary64.emax + binary64.ulp) := by
        decide
      omega
    have hs : ¬ ((j : Int) * ((1000000 * 2 ^ 1074 : Nat) : Int) < 0) := by
      have := Int.mul_nonneg (Int.ofNat_nonneg j) (Int.ofNat_nonneg (1000000 * 2 ^ 1074))
      omega
    simp only [FloatFormat.mul, FloatFormat.round, hr, hlt, hs, decide_False,
      Bool.false_eq_true, if_false, FloatFormat.trunc]
    rw [← Int.ofNat_tdiv]
    have hdiv : roundMag 53 (j * 1000000) 1 / 2 ^ binary64.ulp ≤ 9223372036853999616 := by
      calc roundMag 53 (j * 1000000) 1 / 2 ^ binary64.ulp
          ≤ 9223372036853999616 * 2 ^ 1074 / 2 ^ binary64.ulp := Nat.div_le_div_right hmono
        _ = 9223372036853999616 := Nat.mul_div_cancel _ (Nat.two_pow_pos _)
    exact ⟨Int.ofNat_nonneg _, by exact_mod_cast hdiv⟩

theorem ediv_ediv_of_nonneg (x n k : Int) (hx : 0 ≤ x) (hn : 0 ≤ n) (hk : 0 ≤ k) :
    x / n / k = x / (n * k) := by
  obtain ⟨a, rfl⟩ := Int.eq_ofNat_of_zero_le hx
  obtain ⟨b, rfl⟩ := Int.eq_ofNat_of_zero_le hn
  obtain ⟨c, rfl⟩ := Int.eq_ofNat_of_zero_le hk
  norm_cast
  exact Nat.div_div_eq_div_mul a b c

theorem wrap64_of_range (x : Int) (h0 : 0 ≤ x) (h1 : x ≤ INT64_MAX) : wrap64 x = x := by
  unfold INT64_MAX at h1
  unfold wrap64
  norm_num at h1 ⊢
  omega

/-- C13 (amended): for a position inside the seek guard and a time base with
positive `num` and `den`, `timestamp = (int64_t)(position * AV_TIME_BASE)` is
in `0 .. 9223372036853999616`; and whenever `timestamp * den` does not exceed
`INT64_MAX`, neither the product nor the quotient by `num` wraps, the target
passed to `av_seek_frame` is `floor (timestamp * den / (num * 1000000))`, it
is not negative, and it is at most `timestamp * den / (num * 1000000)`. -/
theorem C13_seek_target_within_int64 (position : FP) (time_base : AVRational)
    (hg : seekGuard position = true) (hn : 0 < time_base.num) (hd : 0 < time_base.den) :
    0 ≤ seekMicros position ∧ seekMicros position ≤ 9223372036853999616 ∧
    (seekMicros position * time_base.den ≤ INT64_MAX →
      wrap64 (seekMicros position * time_base.den) = seekMicros position * time_base.den ∧
      wrap64 (Int.tdiv (seekMicros position * time_base.den) time_base.num)
        = Int.tdiv (seekMicros position * time_base.den) time_base.num ∧
      seekTarget position time_base
        = seekMicros position * time_base.den / (time_base.num * 1000000) ∧
      0 ≤ seekTarget position time_base ∧
      seekTarget position time_base * (time_base.num * 1000000)
        ≤ seekMicros position * time_base.den) := by
  obtain ⟨h0, h1⟩ := seekMicros_bounds position hg
  refine ⟨h0, h1, ?_⟩
  intro hx
  have hx0 : 0 ≤ seekMicros position * time_base.den := Int.mul_nonneg h0 (le_of_lt hd)
  have hw1 := wrap64_of_range _ hx0 hx
  have ht1 : Int.tdiv (seekMicros position * time_base.den) time_base.num
      = seekMicros position * time_base.den / time_base.num :=
    Int.tdiv_eq_ediv hx0 (le_of_lt hn)
  have hy0 : 0 ≤ seekMicros position * time_base.den / time_base.num :=
    Int.ediv_nonneg hx0 (le_of_lt hn)
  have hy1 : seekMicros position * time_base.den / time_base.num ≤ INT64_MAX :=
    le_trans (Int.ediv_le_self _ hx0) hx
  have hw2 := wrap64_of_range _ hy0 hy1
  have hpos : (0 : Int) < time_base.num * 1000000 := by omega
  have htarget : seekTarget position time_base
      = seekMicros position * time_base.den / (time_base.num * 1000000) := by
    unfold seekTarget
    rw [hw1, ht1, hw2, Int.tdiv_eq_ediv hy0 (by decide)]
    exact ediv_ediv_of_nonneg _ _ _ hx0 (le_of_lt hn) (by decide)
  refine ⟨hw1, by rw [ht1]; exact hw2, htarget, ?_, ?_⟩
  · rw [htarget]; exact Int.ediv_nonneg hx0 (le_of_lt hpos)
  · rw [htarget]; exact Int.ediv_mul_le _ (ne_of_gt hpos)

set_option maxRecDepth 100000 in
/-- C13 (amended) at position `10.0` on a stream with time base `1/90000`: the
target is `900000`. -/
theorem C13_seek_target_witness :
    seekGuard (binary64.ofInt 10) = true ∧
    seekTarget (binary64.ofInt 10) ⟨1, 90000⟩
      = seekMicros (binary64.ofInt 10) * 90000 / (1 * 1000000) ∧
    seekMicros (binary64.ofInt 10) * 90000 / (1 * 1000000) = 900000 :=
  ⟨by decide,
   ((C13_seek_target_within_int64 (binary64.ofInt 10) ⟨1, 90000⟩ (by decide) (by decide)
      (by decide)).2.2 (by decide)).2.2.1,
   by decide⟩

set_option maxRecDepth 100000 in
/-- C13 as stated fails. Position `10000.0` on time base `1/1000000000` and
position `200000000.0` on time base `1/90000` pass the guard, `timestamp * den`
exceeds `INT64_MAX`, and the wrapped computation gives a negative target
(`floor (timestamp * den / (num * 1000000))` is `10000000000000` in the first
case). And without any overflow, at position `0.3` (the double
`5404319552844595 * 2^-54`) on time base `1/1000000` the double product
`position * 1000000` rounds up to `300000.0`, so the target `300000` is above
`position * den / num`. -/
theorem C13_seek_target_overflows :
    (seekGuard (binary64.ofInt 10000) = true ∧
      INT64_MAX < seekMicros (binary64.ofInt 10000) * 1000000000 ∧
      seekTarget (binary64.ofInt 10000) ⟨1, 1000000000⟩ = -8446744073709 ∧
      seekMicros (binary64.ofInt 10000) * 1000000000 / (1 * 1000000) = 10000000000000) ∧
    (seekGuard (binary64.ofInt 200000000) = true ∧
      INT64_MAX < seekMicros (binary64.ofInt 200000000) * 90000 ∧
      seekTarget (binary64.ofInt 200000000) ⟨1, 90000⟩ = -446744073709) ∧
    (binary64.div (binary64.ofInt 3) (binary64.ofInt 10)
        = .fin (5404319552844595 * ((2 ^ 1020 : Nat) : Int)) ∧
      seekGuard (binary64.div (binary64.ofInt 3) (binary64.ofInt 10)) = true ∧
      seekTarget (binary64.div (binary64.ofInt 3) (binary64.ofInt 10)) ⟨1, 1000000⟩ = 300000 ∧
      (5404319552844595 * ((2 ^ 1020 : Nat) : Int)) * 1000000
        < 300000 * 1 * ((2 ^ 1074 : Nat) : Int)) := by
  decide

end Thumbnail
